import Mathlib

namespace GanttChart

set_option maxHeartbeats 1000000

/-- Day-of-era of the start of march-based year `t` within a 400-year era. -/
def yd (t : ℤ) : ℤ := 365 * t + t / 4 - t / 100

/-- Day number (days since 1970-01-01) of a proleptic-Gregorian civil date,
via the Julian-day-number formula with floor divisions. -/
def daysFromCivil (y m d : ℤ) : ℤ :=
  let a := (14 - m) / 12
  let y2 := y + 4800 - a
  let m2 := m + 12 * a - 3
  d + (153 * m2 + 2) / 5 + 365 * y2 + y2 / 4 - y2 / 100 + y2 / 400
    - 32045 - 2440588

/-- Civil date (year, month, day) of a day number: 400-year era split, a bounded
self-correcting search for the march-based year of era, then a month table. -/
def civilFromDays (z : ℤ) : ℤ × ℤ × ℤ :=
  let z2 := z + 719468
  let era := z2 / 146097
  let doe := z2 - era * 146097
  let q := doe / 366
  let yoe := if doe = 146096 then 399
    else if doe < yd (q + 1) then q
    else if doe < yd (q + 2) then q + 1
    else q + 2
  let y0 := yoe + era * 400
  let doy := doe - yd yoe
  if doy ≤ 30 then (y0, 3, doy + 1)
  else if doy ≤ 60 then (y0, 4, doy - 30)
  else if doy ≤ 91 then (y0, 5, doy - 60)
  else if doy ≤ 121 then (y0, 6, doy - 91)
  else if doy ≤ 152 then (y0, 7, doy - 121)
  else if doy ≤ 183 then (y0, 8, doy - 152)
  else if doy ≤ 213 then (y0, 9, doy - 183)
  else if doy ≤ 244 then (y0, 10, doy - 213)
  else if doy ≤ 274 then (y0, 11, doy - 244)
  else if doy ≤ 305 then (y0, 12, doy - 274)
  else if doy ≤ 336 then (y0 + 1, 1, doy - 305)
  else (y0 + 1, 2, doy - 336)

/-- Number of days in month `m` of year `y`: day distance to the next month's first. -/
def monthLen (y m : ℤ) : ℤ :=
  (if m = 12 then daysFromCivil (y + 1) 1 1 else daysFromCivil y (m + 1) 1) -
    daysFromCivil y m 1

/-- Length in days of the march-based year starting at `yd (t+1)` relative to `yd t`. -/
theorem yd_succ (t : ℤ) :
    365 * (t + 1) + (t + 1) / 4 - (t + 1) / 100 =
      (365 * t + t / 4 - t / 100) + 365 + (if (t + 1) % 4 = 0 then 1 else 0)
        - (if (t + 1) % 100 = 0 then 1 else 0) := by
  split_ifs <;> omega

theorem civilFromDays_spec (z y m d : ℤ) (hc : civilFromDays z = (y, m, d)) :
    daysFromCivil y m d = z ∧ 1 ≤ m ∧ m ≤ 12 ∧ 1 ≤ d ∧ d ≤ monthLen y m := by
  simp only [civilFromDays] at hc
  generalize hera : (z + 719468) / 146097 = era at hc
  generalize hdoe : z + 719468 - era * 146097 = doe at hc
  have hdoeB : 0 ≤ doe ∧ doe ≤ 146096 := by omega
  generalize hq : doe / 366 = q at hc
  generalize hyoe : (if doe = 146096 then (399 : ℤ)
    else if doe < yd (q + 1) then q
    else if doe < yd (q + 2) then q + 1
    else q + 2) = yoe at hc
  have key : 0 ≤ yoe ∧ yoe ≤ 399 ∧ 365 * yoe + yoe / 4 - yoe / 100 ≤ doe ∧
      (doe - (365 * yoe + yoe / 4 - yoe / 100) ≤ 364 ∨
        (doe - (365 * yoe + yoe / 4 - yoe / 100) ≤ 365 ∧ (yoe + 1) % 4 = 0 ∧
          ((yoe + 1) % 100 ≠ 0 ∨ (yoe + 1) % 400 = 0))) := by
    simp only [yd] at hyoe
    split_ifs at hyoe
    · rw [← hyoe]; omega
    · rw [← hyoe]
      have h1 := yd_succ q
      split_ifs at h1 <;> omega
    · rw [← hyoe]
      have h1 := yd_succ (q + 1)
      split_ifs at h1 <;> omega
    · rw [← hyoe]
      have h1 := yd_succ (q + 2)
      have h2 := yd_succ (q + 1)
      split_ifs at h1 h2 <;> omega
  obtain ⟨k0, k1, k2, k3⟩ := key
  clear hyoe hq
  generalize hdoy : doe - yd yoe = doy at hc
  simp only [yd] at hdoy
  have t4 : (yoe + era * 400 + 4800) / 4 = yoe / 4 + era * 100 + 1200 := by omega
  have t100 : (yoe + era * 400 + 4800) / 100 = yoe / 100 + era * 4 + 48 := by omega
  have t400 : (yoe + era * 400 + 4800) / 400 = era + 12 := by omega
  have s4 : (yoe + era * 400 + 4801) / 4 = (yoe + 1) / 4 + era * 100 + 1200 := by omega
  have s100 : (yoe + era * 400 + 4801) / 100 = (yoe + 1) / 100 + era * 4 + 48 := by omega
  have s400 : (yoe + era * 400 + 4801) / 400 = (yoe + 1) / 400 + era + 12 := by omega
  have u4 : (yoe + era * 400 + 1 + 4800 - 1) / 4 = yoe / 4 + era * 100 + 1200 := by omega
  have u100 : (yoe + era * 400 + 1 + 4800 - 1) / 100 = yoe / 100 + era * 4 + 48 := by omega
  have u400 : (yoe + era * 400 + 1 + 4800 - 1) / 400 = era + 12 := by omega
  have v4 : (yoe + era * 400 + 1 + 4800) / 4 = (yoe + 1) / 4 + era * 100 + 1200 := by omega
  have v100 : (yoe + era * 400 + 1 + 4800) / 100 = (yoe + 1) / 100 + era * 4 + 48 := by omega
  have v400 : (yoe + era * 400 + 1 + 4800) / 400 = (yoe + 1) / 400 + era + 12 := by omega
  by_cases c1 : doy ≤ 30
  case pos =>
    rw [if_pos c1] at hc
    injection hc with hy hc2; injection hc2 with hm hd
    subst hy; subst hm; subst hd
    refine ⟨by simp only [daysFromCivil]; norm_num; omega, by omega, by omega, by omega, ?_⟩
    simp only [monthLen, daysFromCivil]; norm_num; (try split_ifs) <;> omega
  rw [if_neg c1] at hc
  by_cases c2 : doy ≤ 60
  case pos =>
    rw [if_pos c2] at hc
    injection hc with hy hc2; injection hc2 with hm hd
    subst hy; subst hm; subst hd
    refine ⟨by simp only [daysFromCivil]; norm_num; omega, by omega, by omega, by omega, ?_⟩
    simp only [monthLen, daysFromCivil]; norm_num; (try split_ifs) <;> omega
  rw [if_neg c2] at hc
  by_cases c3 : doy ≤ 91
  case pos =>
    rw [if_pos c3] at hc
    injection hc with hy hc2; injection hc2 with hm hd
    subst hy; subst hm; subst hd
    refine ⟨by simp only [daysFromCivil]; norm_num; omega, by omega, by omega, by omega, ?_⟩
    simp only [monthLen, daysFromCivil]; norm_num; (try split_ifs) <;> omega
  rw [if_neg c3] at hc
  by_cases c4 : doy ≤ 121
  case pos =>
    rw [if_pos c4] at hc
    injection hc with hy hc2; injection hc2 with hm hd
    subst hy; subst hm; subst hd
    refine ⟨by simp only [daysFromCivil]; norm_num; omega, by omega, by omega, by omega, ?_⟩
    simp only [monthLen, daysFromCivil]; norm_num; (try split_ifs) <;> omega
  rw [if_neg c4] at hc
  by_cases c5 : doy ≤ 152
  case pos =>
    rw [if_pos c5] at hc
    injection hc with hy hc2; injection hc2 with hm hd
    subst hy; subst hm; subst hd
    refine ⟨by simp only [daysFromCivil]; norm_num; omega, by omega, by omega, by omega, ?_⟩
    simp only [monthLen, daysFromCivil]; norm_num; (try split_ifs) <;> omega
  rw [if_neg c5] at hc
  by_cases c6 : doy ≤ 183
  case pos =>
    rw [if_pos c6] at hc
    injection hc with hy hc2; injection hc2 with hm hd
    subst hy; subst hm; subst hd
    refine ⟨by simp only [daysFromCivil]; norm_num; omega, by omega, by omega, by omega, ?_⟩
    simp only [monthLen, daysFromCivil]; norm_num; (try split_ifs) <;> omega
  rw [if_neg c6] at hc
  by_cases c7 : doy ≤ 213
  case pos =>
    rw [if_pos c7] at hc
    injection hc with hy hc2; injection hc2 with hm hd
    subst hy; subst hm; subst hd
    refine ⟨by simp only [daysFromCivil]; norm_num; omega, by omega, by omega, by omega, ?_⟩
    simp only [monthLen, daysFromCivil]; norm_num; (try split_ifs) <;> omega
  rw [if_neg c7] at hc
  by_cases c8 : doy ≤ 244
  case pos =>
    rw [if_pos c8] at hc
    injection hc with hy hc2; injection hc2 with hm hd
    subst hy; subst hm; subst hd
    refine ⟨by simp only [daysFromCivil]; norm_num; omega, by omega, by omega, by omega, ?_⟩
    simp only [monthLen, daysFromCivil]; norm_num; (try split_ifs) <;> omega
  rw [if_neg c8] at hc
  by_cases c9 : doy ≤ 274
  case pos =>
    rw [if_pos c9] at hc
    injection hc with hy hc2; injection hc2 with hm hd
    subst hy; subst hm; subst hd
    refine ⟨by simp only [daysFromCivil]; norm_num; omega, by omega, by omega, by omega, ?_⟩
    simp only [monthLen, daysFromCivil]; norm_num; (try split_ifs) <;> omega
  rw [if_neg c9] at hc
  by_cases c10 : doy ≤ 305
  case pos =>
    rw [if_pos c10] at hc
    injection hc with hy hc2; injection hc2 with hm hd
    subst hy; subst hm; subst hd
    refine ⟨by simp only [daysFromCivil]; norm_num; omega, by omega, by omega, by omega, ?_⟩
    simp only [monthLen, daysFromCivil]; norm_num; (try split_ifs) <;> omega
  rw [if_neg c10] at hc
  by_cases c11 : doy ≤ 336
  case pos =>
    rw [if_pos c11] at hc
    injection hc with hy hc2; injection hc2 with hm hd
    subst hy; subst hm; subst hd
    refine ⟨by simp only [daysFromCivil]; norm_num; omega, by omega, by omega, by omega, ?_⟩
    simp only [monthLen, daysFromCivil]; norm_num; (try split_ifs) <;> omega
  rw [if_neg c11] at hc
  injection hc with hy hc2; injection hc2 with hm hd
  subst hy; subst hm; subst hd
  have febLen : monthLen (yoe + era * 400 + 1) 2 =
      28 + (if (yoe + 1) % 4 = 0 then 1 else 0) - (if (yoe + 1) % 100 = 0 then 1 else 0)
        + (if (yoe + 1) % 400 = 0 then 1 else 0) := by
    have w4 : (yoe + 1) / 100 - yoe / 100 ≤ (yoe + 1) / 4 - yoe / 4 := by omega
    simp only [monthLen, daysFromCivil]
    norm_num
    split_ifs <;> omega
  refine ⟨by simp only [daysFromCivil]; norm_num; omega, by omega, by omega, by omega, ?_⟩
  rw [febLen]
  split_ifs <;> omega

/-- Linear month index: month `m` of year `y` is month number `12*y + m - 1`. -/
def monthIdx (y m : ℤ) : ℤ := 12 * y + m - 1

/-- Day number of the first day of the month with linear index `k`. -/
def firstOfIdx (k : ℤ) : ℤ := daysFromCivil (k / 12) (k % 12 + 1) 1

/-- `daysFromCivil` is linear in the day argument. -/
theorem daysFromCivil_day (y m d : ℤ) :
    daysFromCivil y m d = daysFromCivil y m 1 + (d - 1) := by
  simp only [daysFromCivil]; omega

/-- Months are between 28 and 31 days long. -/
theorem monthLen_bounds (y m : ℤ) (h1 : 1 ≤ m) (h2 : m ≤ 12) :
    28 ≤ monthLen y m ∧ monthLen y m ≤ 31 := by
  interval_cases m <;> (simp only [monthLen, daysFromCivil]; norm_num; try omega)

/-- `monthIdx` composed with the index projections. -/
theorem monthIdx_proj (y m : ℤ) (h1 : 1 ≤ m) (h2 : m ≤ 12) :
    monthIdx y m / 12 = y ∧ monthIdx y m % 12 + 1 = m := by
  simp only [monthIdx]; omega

/-- The first of the month at index `monthIdx y m` is the first of month `m` of year `y`. -/
theorem firstOfIdx_monthIdx (y m : ℤ) (h1 : 1 ≤ m) (h2 : m ≤ 12) :
    firstOfIdx (monthIdx y m) = daysFromCivil y m 1 := by
  obtain ⟨e1, e2⟩ := monthIdx_proj y m h1 h2
  simp only [firstOfIdx]
  rw [e1, e2]

/-- Stepping the month index advances the first-of-month day number by the month length. -/
theorem firstOfIdx_succ (k : ℤ) :
    firstOfIdx (k + 1) = firstOfIdx k + monthLen (k / 12) (k % 12 + 1) := by
  rcases eq_or_ne (k % 12) 11 with hr | hr
  · have hA : (k + 1) / 12 = k / 12 + 1 := by omega
    have hB : (k + 1) % 12 = 0 := by omega
    have hc : k % 12 + 1 = 12 := by omega
    simp only [firstOfIdx, monthLen, hA, hB, hc, if_true]
    norm_num
  · have hA : (k + 1) / 12 = k / 12 := by omega
    have hB : (k + 1) % 12 = k % 12 + 1 := by omega
    have hc : ¬(k % 12 + 1 = 12) := by omega
    simp only [firstOfIdx, monthLen, hA, hB]
    rw [if_neg hc]
    omega

theorem firstOfIdx_strictMono : StrictMono firstOfIdx := by
  apply strictMono_int_of_lt_succ
  intro k
  rw [firstOfIdx_succ k]
  have := monthLen_bounds (k / 12) (k % 12 + 1) (by omega) (by omega)
  omega

/-- Round trip: a valid civil date maps to a day number and back to itself. -/
theorem civilFromDays_daysFromCivil (y m d : ℤ) (h1 : 1 ≤ m) (h2 : m ≤ 12)
    (h3 : 1 ≤ d) (h4 : d ≤ monthLen y m) :
    civilFromDays (daysFromCivil y m d) = (y, m, d) := by
  rcases hC : civilFromDays (daysFromCivil y m d) with ⟨y', m', d'⟩
  obtain ⟨hinv, hm1, hm2, hd1, hd2⟩ := civilFromDays_spec _ y' m' d' hC
  -- both (y, m, d) and (y', m', d') locate the same day number in a month interval
  have hlin := daysFromCivil_day y m d
  have hlin' := daysFromCivil_day y' m' d'
  have hk := firstOfIdx_monthIdx y m h1 h2
  have hk' := firstOfIdx_monthIdx y' m' hm1 hm2
  have hs := firstOfIdx_succ (monthIdx y m)
  have hs' := firstOfIdx_succ (monthIdx y' m')
  obtain ⟨e1, e2⟩ := monthIdx_proj y m h1 h2
  obtain ⟨e1', e2'⟩ := monthIdx_proj y' m' hm1 hm2
  rw [e1, e2] at hs
  rw [e1', e2'] at hs'
  -- the two month indices coincide
  have hidx : monthIdx y m = monthIdx y' m' := by
    by_contra hne
    rcases lt_or_gt_of_ne hne with hlt | hlt
    · have := firstOfIdx_strictMono.le_iff_le.mpr (by omega : monthIdx y m + 1 ≤ monthIdx y' m')
      omega
    · have := firstOfIdx_strictMono.le_iff_le.mpr (by omega : monthIdx y' m' + 1 ≤ monthIdx y m)
      omega
  have : y = y' ∧ m = m' := by
    simp only [monthIdx] at hidx
    omega
  obtain ⟨rfl, rfl⟩ := this
  have : d = d' := by omega
  subst this
  rfl

/-- Number of days in a month, as the source computes it: the day component of
"the first day of the next month minus one day". -/
def numDaysInMonth (y m : ℤ) : ℤ :=
  (civilFromDays ((if m = 12 then daysFromCivil (y + 1) 1 1 else daysFromCivil y (m + 1) 1) - 1)).2.2

theorem numDaysInMonth_eq (y m : ℤ) (h1 : 1 ≤ m) (h2 : m ≤ 12) :
    numDaysInMonth y m = monthLen y m := by
  have hL := monthLen_bounds y m h1 h2
  have e : daysFromCivil y m (monthLen y m) =
      (if m = 12 then daysFromCivil (y + 1) 1 1 else daysFromCivil y (m + 1) 1) - 1 := by
    have h := daysFromCivil_day y m (monthLen y m)
    simp only [monthLen] at *
    split_ifs at * <;> omega
  rw [numDaysInMonth, ← e,
    civilFromDays_daysFromCivil y m _ h1 h2 (by omega) (le_refl _)]
/-! ## Source embedding

Instants (`chrono::NaiveDateTime` at day granularity) are day numbers `z : ℤ`
(days since 1970-01-01); `f32` values are embedded as exact rationals `ℚ`
(ℚ division by zero yields 0 where `f32` would yield NaN/∞ — noted where
relevant); `u32`/`usize` are `ℕ`. The one `rand::thread_rng().gen()` draw is
an explicit parameter `h0`. -/

/-- Day of week of a day number: 0 = Sunday … 6 = Saturday (1970-01-01 was a Thursday). -/
def weekday (z : ℤ) : ℤ := (z + 4) % 7

/-- Day-granularity stand-in for `NaiveDateTime::MAX` (its time component makes it
strictly above every midnight instant, hence the `+ 1`). -/
def dateMAX : ℤ := daysFromCivil 262143 12 31 + 1

/-- Day-granularity stand-in for `NaiveDateTime::MIN` (midnight exactly). -/
def dateMIN : ℤ := daysFromCivil (-262144) 1 1

/-- `src/item_data.rs` `ItemData` (`open` is a Lean keyword, hence `open_`). -/
structure ItemData where
  title : String
  duration : Option ℤ
  duration_ms : Option ℤ
  start_ms : Option ℤ
  start_date : Option ℤ
  resource_index : Option ℕ
  open_ : Option Bool
deriving DecidableEq

/-- `src/chart_data.rs` `ChartData`. -/
structure ChartData where
  title : String
  marked_date : Option ℤ
  resources : List String
  items : List ItemData
deriving DecidableEq

/-- `src/lib.rs` `Gutter`. -/
structure Gutter where
  left : ℚ
  top : ℚ
  right : ℚ
  bottom : ℚ
deriving DecidableEq

def Gutter.height (g : Gutter) : ℚ := g.bottom + g.top

def Gutter.width (g : Gutter) : ℚ := g.right + g.left

/-- `src/lib.rs` `RowRenderData`. If `length` is not present then this is a milestone. -/
structure RowRenderData where
  title : String
  resource_index : ℕ
  offset : ℚ
  length : Option ℚ
  open_ : Bool
deriving DecidableEq

/-- `src/lib.rs` `ColumnRenderData`. -/
structure ColumnRenderData where
  width : ℚ
  month_name : String
deriving DecidableEq

/-- `src/lib.rs` `RenderData`. -/
structure RenderData where
  title : String
  gutter : Gutter
  row_gutter : Gutter
  row_height : ℚ
  resource_gutter : Gutter
  resource_height : ℚ
  marked_date_offset : Option ℚ
  title_width : ℚ
  max_month_width : ℚ
  rect_corner_radius : ℚ
  styles : List String
  cols : List ColumnRenderData
  rows : List RowRenderData
  resources : List String
deriving DecidableEq

/-- The weekend snap applied to the running start date (lines 243-247 of lib.rs):
Saturday moves forward 2 days, Sunday 1 day. -/
def weekendSnap (z : ℤ) : ℤ :=
  if weekday z = 6 then z + 2 else if weekday z = 0 then z + 1 else z

/-- The shadow duration of a task starting at cursor `date` with nominal duration
`k` (lines 254-259 of lib.rs): extended by 2 days if the projected end
`date + k` is a Saturday, by 1 day if it is a Sunday. -/
def shadowOf (date k : ℤ) : ℤ :=
  if weekday (date + k) = 6 then k + 2
  else if weekday (date + k) = 0 then k + 1
  else k

/-- State of the first pass over the items (lines 231-234 of lib.rs). -/
structure Pass1State where
  start_date : ℤ
  end_date : ℤ
  date : ℤ
  shadow_durations : List (Option ℤ)
deriving DecidableEq

/-- One iteration of the first loop of `process_chart_data` (lines 237-281):
cursor jump to an explicit start instant (snapping the running start date),
shadow-duration computation and cursor advance, end-date tracking, and
resource-index validation, in source order. -/
def pass1Step (resLen : ℕ) (i : ℕ) (st : Pass1State) (item : ItemData) :
    Except String Pass1State :=
  match item.start_date with
  | some isd =>
    let start1 := if isd < st.start_date then weekendSnap isd else st.start_date
    pass1Rest resLen i st start1 isd item
  | none =>
    if i = 0 then .error "First item must contain a start date"
    else pass1Rest resLen i st st.start_date st.date item
where
  /-- The remainder of the loop body after the start-date handling:
  `date1` is the cursor after the optional jump, `start1` the running start. -/
  pass1Rest (resLen : ℕ) (i : ℕ) (st : Pass1State) (start1 date1 : ℤ)
      (item : ItemData) : Except String Pass1State :=
    let p :=
      match item.duration with
      | some k => (date1 + shadowOf date1 k, st.shadow_durations ++ [some (shadowOf date1 k)])
      | none => (date1, st.shadow_durations ++ [none])
    let end2 := if st.end_date < p.1 then p.1 else st.end_date
    match item.resource_index with
    | some ri =>
      if resLen ≤ ri then .error "Resource index is out of range"
      else .ok ⟨start1, end2, p.1, p.2⟩
    | none =>
      if i = 0 then .error "First item must contain a resource index"
      else .ok ⟨start1, end2, p.1, p.2⟩

/-- The first loop of `process_chart_data`, folding `pass1Step` with the item index. -/
def pass1Go (resLen : ℕ) (i : ℕ) (st : Pass1State) : List ItemData → Except String Pass1State
  | [] => .ok st
  | item :: rest =>
    match pass1Step resLen i st item with
    | .error e => .error e
    | .ok st' => pass1Go resLen (i + 1) st' rest

/-- The initial state of the first pass (lines 231-233). -/
def initState : Pass1State := ⟨dateMAX, dateMIN, dateMIN, []⟩

/-- The first pass of `process_chart_data`. -/
def pass1 (cd : ChartData) : Except String Pass1State :=
  pass1Go cd.resources.length 0 initState cd.items

/-- `start_date` snapped to the first of its month (line 283). -/
def startSnap (st : Pass1State) : ℤ :=
  daysFromCivil (civilFromDays st.start_date).1 (civilFromDays st.start_date).2.1 1

/-- `end_date` snapped to the last day of its month (lines 284-288). -/
def endSnap (st : Pass1State) : ℤ :=
  daysFromCivil (civilFromDays st.end_date).1 (civilFromDays st.end_date).2.1
    (numDaysInMonth (civilFromDays st.end_date).1 (civilFromDays st.end_date).2.1)

/-- The month index of the snapped start date, where the column loop begins. -/
def startMonthIdx (st : Pass1State) : ℤ :=
  monthIdx (civilFromDays st.start_date).1 (civilFromDays st.start_date).2.1

/-- `MONTH_NAMES[m - 1]` of lib.rs. -/
def monthName (m : ℤ) : String :=
  if m = 1 then "Jan" else if m = 2 then "Feb" else if m = 3 then "Mar"
  else if m = 4 then "Apr" else if m = 5 then "May" else if m = 6 then "Jun"
  else if m = 7 then "Jul" else if m = 8 then "Aug" else if m = 9 then "Sep"
  else if m = 10 then "Oct" else if m = 11 then "Nov" else "Dec"

/-- The column loop of `process_chart_data` (lines 290-314). The loop variable
`date` is always the first day of a month, so the state is its month index `k`;
the guard compares that first day against `end_date`. Returns the column list,
the accumulated `all_items_width` and the accumulated `num_item_days`.
The loop terminates because each month advances the date; here the recursion
carries a fuel that `buildCols` instantiates with a provably sufficient bound
(`buildColsGo_eq_spec` shows the guard, not the fuel, stops the loop). -/
def buildColsGo (maxW : ℚ) (endZ : ℤ) : ℕ → ℤ → List ColumnRenderData × ℚ × ℕ
  | 0, _ => ([], 0, 0)
  | fuel + 1, k =>
    if daysFromCivil (k / 12) (k % 12 + 1) 1 ≤ endZ then
      let dim := numDaysInMonth (k / 12) (k % 12 + 1)
      let w := maxW * (dim : ℚ) / 31
      let rest := buildColsGo maxW endZ fuel (k + 1)
      (⟨w, monthName (k % 12 + 1)⟩ :: rest.1, w + rest.2.1, dim.toNat + rest.2.2)
    else ([], 0, 0)

def buildCols (maxW : ℚ) (endZ : ℤ) (k : ℤ) : List ColumnRenderData × ℚ × ℕ :=
  buildColsGo maxW endZ ((endZ + 1 - daysFromCivil (k / 12) (k % 12 + 1) 1).toNat + 1) k

/-- The row-geometry loop of `process_chart_data` (lines 343-372). The items are
zipped with the shadow durations recorded by the first pass (which pushes
exactly one entry per item, so the zip loses nothing). State: the cursor
`date` (reset to the snapped `start_date`) and the running `resource_index`
(initially 0, line 318). -/
def rowsGo (tw gl : ℚ) (startZ : ℤ) (n : ℕ) (w : ℚ) :
    ℤ → ℕ → List (ItemData × Option ℤ) → List RowRenderData
  | _, _, [] => []
  | date, ri, (item, sh) :: rest =>
    let date1 := match item.start_date with | some d => d | none => date
    let offset := tw + gl + (((date1 - startZ : ℤ) : ℚ) / (n : ℚ)) * w
    let p : ℤ × Option ℚ :=
      match sh with
      | some k => (date1 + k, some ((k : ℚ) / (n : ℚ) * w))
      | none => (date1, none)
    let ri2 := match item.resource_index with | some r => r | none => ri
    ⟨item.title, ri2, offset, p.2, item.open_.getD false⟩ ::
      rowsGo tw gl startZ n w p.1 ri2 rest

/-- `GOLDEN_RATIO_CONJUGATE` (the `f32` literal read exactly). -/
def GOLDEN_RATIO_CONJUGATE : ℚ := 0.618033988749895

/-- Rust saturating `f32 as u32` cast at day precision: truncation, clamped to `[0, 2^32)`. -/
def f32AsU32 (x : ℚ) : ℕ := min (Int.toNat ⌊x⌋) 4294967295

/-- The `rgb` helper inside `hsv_to_rgb` (lines 188-190): pack three channels,
shifts wrapping as `u32` arithmetic does. -/
def rgbPack (r g b : ℚ) : ℕ :=
  ((f32AsU32 (r * 256)) <<< 16) % 4294967296 |||
    ((f32AsU32 (g * 256)) <<< 8) % 4294967296 ||| f32AsU32 (b * 256)

/-- `hsv_to_rgb` (lines 181-205). -/
def hsv_to_rgb (h s v : ℚ) : ℕ :=
  let h_i := Int.toNat ⌊h * 6⌋
  let f := h * 6 - ((Int.toNat ⌊h * 6⌋ : ℤ) : ℚ)
  let p := v * (1 - s)
  let q := v * (1 - f * s)
  let t := v * (1 - (1 - f) * s)
  if h_i = 0 then rgbPack v t p
  else if h_i = 1 then rgbPack q v p
  else if h_i = 2 then rgbPack p v t
  else if h_i = 3 then rgbPack p q v
  else if h_i = 4 then rgbPack t p v
  else rgbPack v p q

/-- `%06x` formatting of a `u32`. -/
def hexPad6 (n : ℕ) : String :=
  let ds := Nat.toDigits 16 n
  ⟨List.replicate (6 - ds.length) '0' ++ ds⟩

/-- The fixed stylesheet entries (lines 386-396). -/
def baseStyles : List String :=
  [".outer-lines\x7bstroke-width:3;stroke:#aaaaaa;\x7d",
   ".inner-lines\x7bstroke-width:2;stroke:#dddddd;\x7d",
   ".item\x7bfont-family:Arial;font-size:12pt;dominant-baseline:middle;\x7d",
   ".resource\x7bfont-family:Arial;font-size:12pt;text-anchor:end;dominant-baseline:middle;\x7d",
   ".title\x7bfont-family:Arial;font-size:18pt;\x7d",
   ".heading\x7bfont-family:Arial;font-size:16pt;dominant-baseline:middle;text-anchor:middle;\x7d",
   ".task-heading\x7bdominant-baseline:middle;text-anchor:start;\x7d",
   ".milestone\x7bfill:black;stroke-width:1;stroke:black;\x7d",
   ".marker\x7bstroke-width:2;stroke:#888888;stroke-dasharray:7;\x7d"]

/-- The per-resource style loop (lines 398-415): two classes per resource,
hue advancing by the golden-ratio conjugate modulo 1. -/
def resourceStylesGo (h : ℚ) (i : ℕ) : ℕ → List String
  | 0 => []
  | n + 1 =>
    let rgb := hsv_to_rgb h 0.5 0.5
    (".resource-" ++ toString i ++ "-closed\x7bfill:#" ++ hexPad6 rgb ++
        ";stroke-width:1;stroke:#" ++ hexPad6 rgb ++ ";\x7d") ::
    (".resource-" ++ toString i ++ "-open\x7bfill:none;stroke-width:2;stroke:#" ++
        hexPad6 rgb ++ ";\x7d") ::
    resourceStylesGo (h + GOLDEN_RATIO_CONJUGATE - ((⌊h + GOLDEN_RATIO_CONJUGATE⌋ : ℤ) : ℚ))
      (i + 1) n

/-- `process_chart_data` (lines 207-433), with the random hue draw `h0` as a
parameter. -/
def processChartData (title_width max_month_width h0 : ℚ) (cd : ChartData) :
    Except String RenderData :=
  if cd.items.length < 2 then .error "You must provide more than one task"
  else
    match pass1 cd with
    | .error e => .error e
    | .ok st =>
      -- lines 283-288: snap start to the 1st of its month, end to the last day of its month
      let start_date := startSnap st
      let end_date := endSnap st
      let bc := buildCols max_month_width end_date (startMonthIdx st)
      let gutter : Gutter := ⟨10, 80, 10, 10⟩
      let row_gutter : Gutter := ⟨5, 5, 5, 5⟩
      let row_height := row_gutter.height + 20
      let resource_gutter : Gutter := ⟨10, 10, 10, 10⟩
      let resource_height := resource_gutter.height + 20
      let rows := rowsGo title_width gutter.left start_date bc.2.2 bc.2.1
        start_date 0 (cd.items.zip st.shadow_durations)
      let marked_date_offset :=
        match cd.marked_date with
        | some dz => some (title_width + gutter.left +
            (((dz - start_date : ℤ) : ℚ) / (bc.2.2 : ℚ)) * bc.2.1)
        | none => none
      .ok { title := cd.title
            gutter := gutter
            row_gutter := row_gutter
            row_height := row_height
            resource_gutter := resource_gutter
            resource_height := resource_height
            marked_date_offset := marked_date_offset
            title_width := title_width
            max_month_width := max_month_width
            rect_corner_radius := 3
            styles := baseStyles ++ resourceStylesGo h0 0 cd.resources.length
            cols := bc.1
            rows := rows
            resources := cd.resources }
/-- The worked example of the spec: item A starts Monday 2024-01-01 (day 19723),
duration 5, resource 0; item B has duration 3; two resources. -/
def sampleChart : ChartData :=
  { title := "Example"
    marked_date := none
    resources := ["R1", "R2"]
    items :=
      [{ title := "A", duration := some 5, duration_ms := none, start_ms := none,
         start_date := some 19723, resource_index := some 0, open_ := none },
       { title := "B", duration := some 3, duration_ms := none, start_ms := none,
         start_date := none, resource_index := some 1, open_ := none }] }

deriving instance DecidableEq for Except

/-- The row list of a layout result, empty on a validation error. -/
def rowsOf : Except String RenderData → List RowRenderData
  | .ok rd => rd.rows
  | .error _ => []

/-- The column list of a layout result, empty on a validation error. -/
def colsOf : Except String RenderData → List ColumnRenderData
  | .ok rd => rd.cols
  | .error _ => []

example : weekday 19723 = 1 := by decide
example : pass1 sampleChart = .ok ⟨19723, 19733, 19733, [some 7, some 3]⟩ := by decide
example : (processChartData 210 80 0 sampleChart).isOk = true := by decide
example : (colsOf (processChartData 210 80 0 sampleChart)).map (·.month_name) = ["Jan"] := by
  decide
example : (rowsOf (processChartData 210 80 0 sampleChart)).map (·.resource_index) = [0, 1] := by
  decide
example : (rowsOf (processChartData 210 80 0 sampleChart)).map (·.length.isSome) =
    [true, true] := by decide
example : (buildCols 80 19753 (monthIdx 2024 1)).2.2 = 31 := by decide
/-! ## Scene builder (`render_chart`, lines 435-634)

The `svg` crate's element tree is modelled structurally: each `.set` call is an
attribute-list entry (in call order), `append` adds a child, and path data is
kept as its command list. -/

inductive AttrVal where
  | str : String → AttrVal
  | num : ℚ → AttrVal
  | quad : ℚ → ℚ → ℚ → ℚ → AttrVal
deriving DecidableEq

inductive PathCmd where
  | moveTo : ℚ → ℚ → PathCmd
  | lineBy : ℚ → ℚ → PathCmd
deriving DecidableEq

inductive SvgNode where
  | line : List (String × AttrVal) → SvgNode
  | textNode : String → List (String × AttrVal) → SvgNode
  | rect : List (String × AttrVal) → SvgNode
  | pathNode : List PathCmd → List (String × AttrVal) → SvgNode
  | styleNode : String → SvgNode
  | group : List SvgNode → SvgNode

structure Document where
  attrs : List (String × AttrVal)
  children : List SvgNode

/-- Canvas width (lines 440-443). -/
def canvasWidth (rd : RenderData) : ℚ :=
  rd.gutter.left + rd.title_width + (rd.cols.map (·.width)).sum + rd.gutter.right

/-- Canvas height (lines 444-451). -/
def canvasHeight (add_resource_table : Bool) (rd : RenderData) : ℚ :=
  rd.gutter.top + (rd.rows.length : ℚ) * rd.row_height +
    (if add_resource_table then rd.resource_gutter.height + rd.resource_height else 0) +
    rd.gutter.bottom

/-- `render_chart` (lines 435-634). -/
def renderChart (add_resource_table : Bool) (rd : RenderData) : Document :=
  let width := canvasWidth rd
  let height := canvasHeight add_resource_table rd
  let style := SvgNode.styleNode (String.intercalate "\n" rd.styles)
  let rowsGroup := SvgNode.group <|
    (List.range (rd.rows.length + 1)).flatMap fun i =>
      let y := rd.gutter.top + (i : ℚ) * rd.row_height
      SvgNode.line
        [("class", .str (if i = 0 ∨ i = rd.rows.length then "outer-lines" else "inner-lines")),
         ("x1", .num rd.gutter.left), ("y1", .num y),
         ("x2", .num (width - rd.gutter.right)), ("y2", .num y)] ::
      (match rd.rows[i]? with
       | some row =>
         [SvgNode.textNode row.title
            [("class", .str "item"),
             ("x", .num (rd.gutter.left + rd.row_gutter.left)),
             ("y", .num (y + rd.row_gutter.top + rd.row_height / 2))],
          match row.length with
          | some len =>
            SvgNode.rect
              [("class", .str ("resource-" ++ toString row.resource_index ++
                  (if row.open_ then "-open" else "-closed"))),
               ("x", .num row.offset),
               ("y", .num (y + rd.row_gutter.top)),
               ("rx", .num rd.rect_corner_radius),
               ("ry", .num rd.rect_corner_radius),
               ("width", .num len),
               ("height", .num (rd.row_height - rd.row_gutter.height))]
          | none =>
            let n := (rd.row_height - rd.row_gutter.height) / 2
            SvgNode.pathNode
              [.moveTo (row.offset - n) (y + rd.row_gutter.top + n),
               .lineBy n (-n), .lineBy n n, .lineBy (-n) n, .lineBy (-n) (-n)]
              [("class", .str "milestone")]]
       | none => [])
  let columnsGroup := SvgNode.group <|
    (List.range (rd.cols.length + 1)).flatMap fun i =>
      let x := rd.gutter.left + rd.title_width + ((rd.cols.take i).map (·.width)).sum
      SvgNode.line
        [("class", .str "inner-lines"),
         ("x1", .num x), ("y1", .num rd.gutter.top), ("x2", .num x),
         ("y2", .num (rd.gutter.top + (rd.rows.length : ℚ) * rd.row_height))] ::
      (match rd.cols[i]? with
       | some col =>
         [SvgNode.textNode col.month_name
            [("class", .str "heading"),
             ("x", .num (x + rd.max_month_width / 2)),
             ("y", .num (rd.gutter.top - rd.row_gutter.bottom - rd.row_height / 2))]]
       | none => [])
  let tasks := SvgNode.textNode "Tasks"
    [("class", .str "heading task-heading"),
     ("x", .num (rd.gutter.left + rd.row_gutter.left)),
     ("y", .num (rd.gutter.top - rd.row_gutter.bottom - rd.row_height / 2))]
  let title := SvgNode.textNode rd.title
    [("class", .str "title"), ("x", .num rd.gutter.left), ("y", .num 25)]
  let marker :=
    match rd.marked_date_offset with
    | some offset =>
      SvgNode.line
        [("class", .str "marker"),
         ("x1", .num offset), ("y1", .num (rd.gutter.top - 5)), ("x2", .num offset),
         ("y2", .num (rd.gutter.top + (rd.rows.length : ℚ) * rd.row_height + 5))]
    | none => SvgNode.group []
  let resourcesGroup := SvgNode.group <|
    (List.range rd.resources.length).flatMap fun i =>
      if add_resource_table then
        let y := rd.gutter.top + (rd.rows.length : ℚ) * rd.row_height
        let block_width := rd.resource_height - rd.resource_gutter.height
        [SvgNode.textNode (rd.resources.getD i "")
           [("class", .str "resource"),
            ("x", .num (rd.resource_gutter.left + ((i + 1 : ℕ) : ℚ) * 100 - 5)),
            ("y", .num (y + rd.resource_height / 2))],
         SvgNode.rect
           [("class", .str ("resource-" ++ toString i ++ "-closed")),
            ("x", .num (rd.resource_gutter.left + ((i + 1 : ℕ) : ℚ) * 100 + 5)),
            ("y", .num (y + rd.resource_gutter.top)),
            ("rx", .num rd.rect_corner_radius),
            ("ry", .num rd.rect_corner_radius),
            ("width", .num block_width),
            ("height", .num block_width)]]
      else []
  { attrs :=
      [("viewbox", .quad 0 0 width height),
       ("xmlns", .str "http://www.w3.org/2000/svg"),
       ("width", .num width), ("height", .num height),
       ("style", .str "background-color: white;")]
    children := [style, title, columnsGroup, tasks, rowsGroup, marker, resourcesGroup] }

/-- The core of `run` (lines 156-162): layout then scene building; a layout
error short-circuits, producing neither geometry nor a drawing tree. -/
def runChart (title_width max_month_width h0 : ℚ) (add_resource_table : Bool)
    (cd : ChartData) : Except String (RenderData × Document) :=
  match processChartData title_width max_month_width h0 cd with
  | .error e => .error e
  | .ok rd => .ok (rd, renderChart add_resource_table rd)
/-! ## Validation facts (claim C1) -/

/-- The success condition of one iteration of the first loop: a first item needs
a start date and a resource index, and any present resource index must be in
range. It does not mention the item's duration. -/
def stepCond (resLen i : ℕ) (item : ItemData) : Prop :=
  (item.start_date.isSome = true ∨ i ≠ 0) ∧
  (∀ ri, item.resource_index = some ri → ri < resLen) ∧
  (item.resource_index.isSome = true ∨ i ≠ 0)

theorem pass1Step_isOk (resLen i : ℕ) (st : Pass1State) (item : ItemData) :
    (pass1Step resLen i st item).isOk = true ↔ stepCond resLen i item := by
  rcases item with ⟨t, dur, dms, sms, sd, ri, op⟩
  simp only [pass1Step, pass1Step.pass1Rest, stepCond]
  rcases sd with _ | sd <;> rcases ri with _ | ri <;> rcases dur with _ | k <;>
    simp [Except.isOk, Except.toBool] <;> split_ifs <;>
    simp_all [Except.isOk, Except.toBool] <;> omega

theorem pass1Go_ok_iff (resLen : ℕ) (items : List ItemData) : ∀ (i : ℕ) (st : Pass1State),
    (pass1Go resLen i st items).isOk = true ↔
      ∀ j (hj : j < items.length), stepCond resLen (i + j) (items.get ⟨j, hj⟩) := by
  induction items with
  | nil => intro i st; simp [pass1Go, Except.isOk, Except.toBool]
  | cons item rest ih =>
    intro i st
    simp only [pass1Go]
    rcases hstep : pass1Step resLen i st item with e | st'
    · have : ¬ stepCond resLen i item := by
        rw [← pass1Step_isOk resLen i st item, hstep]
        simp [Except.isOk, Except.toBool]
      simp only [Except.isOk, Except.toBool]
      constructor
      · intro h; simp at h
      · intro h
        exact absurd (by simpa using h 0 (by simp)) this
    · have hok : stepCond resLen i item := by
        rw [← pass1Step_isOk resLen i st item, hstep]
        simp [Except.isOk, Except.toBool]
      rw [ih (i + 1) st']
      constructor
      · intro h j hj
        rcases j with _ | j
        · simpa using hok
        · have := h j (by simpa using hj)
          simpa [Nat.add_assoc, Nat.add_comm 1 j] using this
      · intro h j hj
        have := h (j + 1) (by simpa using hj)
        simpa [Nat.add_assoc, Nat.add_comm 1 j] using this
theorem pass1_ok_iff (cd : ChartData) :
    (pass1 cd).isOk = true ↔
      ∀ j (hj : j < cd.items.length), stepCond cd.resources.length j (cd.items.get ⟨j, hj⟩) := by
  rw [pass1, pass1Go_ok_iff]
  simp

theorem forall_stepCond_iff (len : ℕ) (it0 : ItemData) (rest : List ItemData) :
    (∀ j (hj : j < (it0 :: rest).length), stepCond len j ((it0 :: rest).get ⟨j, hj⟩)) ↔
      (it0.start_date.isSome = true ∧ it0.resource_index.isSome = true ∧
        ∀ it ∈ it0 :: rest, ∀ ri, it.resource_index = some ri → ri < len) := by
  constructor
  · intro h
    have h0 := h 0 (by simp)
    refine ⟨?_, ?_, ?_⟩
    · rcases h0.1 with hs | hi
      · exact hs
      · simp at hi
    · rcases h0.2.2 with hs | hi
      · exact hs
      · simp at hi
    · intro it hit ri hri
      obtain ⟨⟨j, hj⟩, hget⟩ := List.mem_iff_get.mp hit
      exact (h j hj).2.1 ri (by rw [hget]; exact hri)
  · rintro ⟨hs, hr, hrange⟩ j hj
    refine ⟨?_, ?_, ?_⟩
    · cases j with
      | zero => exact Or.inl hs
      | succ j => exact Or.inr (by simp)
    · intro ri hri
      exact hrange _ (List.get_mem _ _ _) ri hri
    · cases j with
      | zero => exact Or.inl hr
      | succ j => exact Or.inr (by simp)

/-- The error taxonomy of the spec: insufficient input, missing anchor data on
the first item, or an out-of-range resource index. -/
def layoutError (cd : ChartData) : Prop :=
  cd.items.length < 2 ∨
  (∃ it0, cd.items.head? = some it0 ∧ (it0.start_date = none ∨ it0.resource_index = none)) ∨
  (∃ it ∈ cd.items, ∃ ri, it.resource_index = some ri ∧ cd.resources.length ≤ ri)

/-- C1: `process_chart_data` returns an error exactly when the schedule has fewer
than two items, the first item lacks a start instant or a resource index, or
some resource index is out of range; in every error case neither a geometry
model nor a drawing tree is produced (the run pipeline propagates the error). -/
theorem process_chart_data_error_iff (tw mw h0 : ℚ) (add : Bool) (cd : ChartData) :
    ((processChartData tw mw h0 cd).isOk = true ↔ ¬ layoutError cd) ∧
    (∀ e, processChartData tw mw h0 cd = .error e →
      runChart tw mw h0 add cd = .error e) := by
  constructor
  · by_cases hlen : cd.items.length < 2
    · simp only [processChartData, if_pos hlen, layoutError]
      simp [Except.isOk, Except.toBool, hlen]
    · have hproc : (processChartData tw mw h0 cd).isOk = (pass1 cd).isOk := by
        simp only [processChartData, if_neg hlen]
        rcases pass1 cd with e | st <;> simp [Except.isOk, Except.toBool]
      rw [hproc, pass1_ok_iff]
      rcases hitems : cd.items with _ | ⟨it0, rest⟩
      · rw [hitems] at hlen; simp at hlen
      rw [hitems] at hlen
      rw [forall_stepCond_iff cd.resources.length it0 rest]
      simp only [layoutError, hitems]
      constructor
      · rintro ⟨hs, hr, hrange⟩
        push_neg
        refine ⟨by simpa [hitems] using hlen, ?_, ?_⟩
        · intro it0' h0'
          simp only [List.head?] at h0'
          injection h0' with h0'
          subst h0'
          constructor
          · intro hnone; rw [hnone] at hs; simp at hs
          · intro hnone; rw [hnone] at hr; simp at hr
        · intro it hit ri hri
          have := hrange it hit ri hri; omega
      · intro h
        push_neg at h
        obtain ⟨-, hhead, hrange⟩ := h
        have h0 := hhead it0 (by simp)
        refine ⟨?_, ?_, ?_⟩
        · rcases hh : it0.start_date with _ | d
          · exact absurd hh h0.1
          · simp
        · rcases hh : it0.resource_index with _ | r
          · exact absurd hh h0.2
          · simp
        · intro it hit ri hri
          have := hrange it hit ri hri; omega
  · intro e he
    simp [runChart, he]

/-- A one-item chart, rejected as insufficient input. -/
def soloChart : ChartData :=
  { title := "Solo", marked_date := none, resources := ["R1"]
    items := [{ title := "A", duration := some 1, duration_ms := none, start_ms := none,
                start_date := some 19723, resource_index := some 0, open_ := none }] }

theorem process_chart_data_error_iff_witness :
    (((processChartData 210 80 0 soloChart).isOk = true ↔ ¬ layoutError soloChart) ∧
      (∀ e, processChartData 210 80 0 soloChart = .error e →
        runChart 210 80 0 false soloChart = .error e)) ∧
    layoutError soloChart ∧ (processChartData 210 80 0 soloChart).isOk = false :=
  ⟨process_chart_data_error_iff 210 80 0 false soloChart,
    Or.inl (by decide), by decide⟩
/-! ## Shadow durations (claims C2, C10) -/

theorem shadowOf_spec (c k : ℤ) :
    shadowOf c k = k + (if weekday (c + k) = 6 then 2
      else if weekday (c + k) = 0 then 1 else 0) ∧
    weekday (c + shadowOf c k) ≠ 6 ∧ weekday (c + shadowOf c k) ≠ 0 ∧
    (weekday (c + k) ≠ 6 → weekday (c + k) ≠ 0 → shadowOf c k = k) := by
  simp only [shadowOf, weekday]
  split_ifs <;> omega

theorem pass1Step_shadow (resLen i : ℕ) (st : Pass1State) (item : ItemData)
    (k : ℤ) (st' : Pass1State) (hdur : item.duration = some k)
    (hok : pass1Step resLen i st item = .ok st') :
    st'.shadow_durations = st.shadow_durations ++
        [some (shadowOf (item.start_date.getD st.date) k)] ∧
    st'.date = item.start_date.getD st.date + shadowOf (item.start_date.getD st.date) k := by
  rcases item with ⟨t, dur, dms, sms, sd, ri, op⟩
  simp only at hdur
  subst hdur
  rcases sd with _ | d <;> rcases ri with _ | r <;>
    simp only [pass1Step, pass1Step.pass1Rest, Option.getD] at hok ⊢ <;>
    split_ifs at hok <;>
    first
      | (injection hok with h; subst h; exact ⟨rfl, rfl⟩)
      | simp_all

/-- C2: for an item carrying a duration, the recorded shadow duration is the
nominal duration plus 2 if the projected end (cursor + duration) falls on a
Saturday, plus 1 on a Sunday, and unchanged otherwise; the shadow end date
(cursor + shadow duration) is never a Saturday or Sunday, and a projected end
already on a weekday leaves the duration unchanged. The cursor here is the
running date after the item's optional jump to an explicit start instant. -/
theorem shadow_duration_weekend (resLen i : ℕ) (st : Pass1State) (item : ItemData)
    (k : ℤ) (st' : Pass1State) (hdur : item.duration = some k)
    (hok : pass1Step resLen i st item = .ok st') :
    st'.shadow_durations = st.shadow_durations ++
        [some (shadowOf (item.start_date.getD st.date) k)] ∧
    shadowOf (item.start_date.getD st.date) k =
      k + (if weekday (item.start_date.getD st.date + k) = 6 then 2
        else if weekday (item.start_date.getD st.date + k) = 0 then 1 else 0) ∧
    weekday (item.start_date.getD st.date + shadowOf (item.start_date.getD st.date) k) ≠ 6 ∧
    weekday (item.start_date.getD st.date + shadowOf (item.start_date.getD st.date) k) ≠ 0 ∧
    (weekday (item.start_date.getD st.date + k) ≠ 6 →
      weekday (item.start_date.getD st.date + k) ≠ 0 →
      shadowOf (item.start_date.getD st.date) k = k) :=
  ⟨(pass1Step_shadow resLen i st item k st' hdur hok).1,
    (shadowOf_spec (item.start_date.getD st.date) k).1,
    (shadowOf_spec _ k).2.1, (shadowOf_spec _ k).2.2.1, (shadowOf_spec _ k).2.2.2⟩

/-- The first item of `sampleChart`. -/
def itemA : ItemData :=
  { title := "A", duration := some 5, duration_ms := none, start_ms := none,
    start_date := some 19723, resource_index := some 0, open_ := none }

theorem shadow_duration_weekend_witness :
    itemA.duration = some 5 ∧
    pass1Step 1 0 initState itemA = .ok ⟨19723, 19730, 19730, [some 7]⟩ ∧
    (⟨19723, 19730, 19730, [some 7]⟩ : Pass1State).shadow_durations =
      initState.shadow_durations ++
        [some (shadowOf (itemA.start_date.getD initState.date) 5)] :=
  ⟨rfl, by decide,
    (shadow_duration_weekend 1 0 initState itemA 5 ⟨19723, 19730, 19730, [some 7]⟩
      rfl (by decide)).1⟩
/-! ## Structure of the passes (claims C3, C4, C7, C10) -/

/-- Full inversion of a successful first-pass iteration. -/
theorem pass1Step_inv (resLen i : ℕ) (st : Pass1State) (item : ItemData)
    (st' : Pass1State) (hok : pass1Step resLen i st item = .ok st') :
    st'.start_date = (match item.start_date with
      | some d => if d < st.start_date then weekendSnap d else st.start_date
      | none => st.start_date) ∧
    st'.date = (match item.duration with
      | some k => item.start_date.getD st.date + shadowOf (item.start_date.getD st.date) k
      | none => item.start_date.getD st.date) ∧
    st'.end_date = (if st.end_date < st'.date then st'.date else st.end_date) ∧
    st'.shadow_durations = st.shadow_durations ++
      [(match item.duration with
        | some k => some (shadowOf (item.start_date.getD st.date) k)
        | none => none)] := by
  rcases item with ⟨t, dur, dms, sms, sd, ri, op⟩
  rcases sd with _ | d <;> rcases ri with _ | r <;> rcases dur with _ | k <;>
    simp only [pass1Step, pass1Step.pass1Rest, Option.getD] at hok ⊢ <;>
    split_ifs at hok <;>
    (try (injection hok with h; subst h)) <;>
    simp_all <;>
    (split_ifs <;> omega)

theorem pass1Go_shadow_length (resLen : ℕ) (items : List ItemData) :
    ∀ (i : ℕ) (st st' : Pass1State), pass1Go resLen i st items = .ok st' →
      st'.shadow_durations.length = st.shadow_durations.length + items.length := by
  induction items with
  | nil =>
    intro i st st' h
    simp only [pass1Go] at h
    injection h with h
    subst h
    simp
  | cons item rest ih =>
    intro i st st' h
    simp only [pass1Go] at h
    rcases hstep : pass1Step resLen i st item with e | st1
    · rw [hstep] at h; exact absurd h (by simp)
    · rw [hstep] at h
      have h1 := (pass1Step_inv resLen i st item st1 hstep).2.2.2
      have h2 := ih (i + 1) st1 st' h
      rw [h2, h1]
      simp
      omega

theorem pass1_shadow_length (cd : ChartData) (st : Pass1State) (hp : pass1 cd = .ok st) :
    st.shadow_durations.length = cd.items.length := by
  have := pass1Go_shadow_length cd.resources.length cd.items 0 initState st hp
  simpa [initState] using this

/-- Destructuring a successful layout run. -/
theorem process_isOk_elim (tw mw h0 : ℚ) (cd : ChartData)
    (h : (processChartData tw mw h0 cd).isOk = true) :
    ¬ cd.items.length < 2 ∧ ∃ st, pass1 cd = .ok st := by
  by_cases hlen : cd.items.length < 2
  · simp [processChartData, if_pos hlen, Except.isOk, Except.toBool] at h
  · refine ⟨hlen, ?_⟩
    rcases hp : pass1 cd with e | st
    · simp [processChartData, if_neg hlen, hp, Except.isOk, Except.toBool] at h
    · exact ⟨st, rfl⟩

/-- The layout result of a successful run, in terms of the pass functions. -/
theorem processChartData_ok_eq (tw mw h0 : ℚ) (cd : ChartData) (st : Pass1State)
    (hlen : ¬ cd.items.length < 2) (hp : pass1 cd = .ok st) :
    processChartData tw mw h0 cd = .ok
      { title := cd.title
        gutter := ⟨10, 80, 10, 10⟩
        row_gutter := ⟨5, 5, 5, 5⟩
        row_height := (⟨5, 5, 5, 5⟩ : Gutter).height + 20
        resource_gutter := ⟨10, 10, 10, 10⟩
        resource_height := (⟨10, 10, 10, 10⟩ : Gutter).height + 20
        marked_date_offset := match cd.marked_date with
          | some dz => some (tw + (⟨10, 80, 10, 10⟩ : Gutter).left +
              (((dz - startSnap st : ℤ) : ℚ) /
                ((buildCols mw (endSnap st) (startMonthIdx st)).2.2 : ℚ)) *
                (buildCols mw (endSnap st) (startMonthIdx st)).2.1)
          | none => none
        title_width := tw
        max_month_width := mw
        rect_corner_radius := 3
        styles := baseStyles ++ resourceStylesGo h0 0 cd.resources.length
        cols := (buildCols mw (endSnap st) (startMonthIdx st)).1
        rows := rowsGo tw (⟨10, 80, 10, 10⟩ : Gutter).left (startSnap st)
          (buildCols mw (endSnap st) (startMonthIdx st)).2.2
          (buildCols mw (endSnap st) (startMonthIdx st)).2.1 (startSnap st) 0
          (cd.items.zip st.shadow_durations)
        resources := cd.resources } := by
  simp only [processChartData, if_neg hlen, hp]

/-- The running resource index sequence: each entry overrides or inherits. -/
def resourceSeq (ri : ℕ) : List (Option ℕ) → List ℕ
  | [] => []
  | o :: rest => o.getD ri :: resourceSeq (o.getD ri) rest

theorem rowsGo_resourceSeq (tw gl : ℚ) (s : ℤ) (n : ℕ) (w : ℚ) :
    ∀ (ps : List (ItemData × Option ℤ)) (date : ℤ) (ri : ℕ),
      (rowsGo tw gl s n w date ri ps).map (·.resource_index) =
        resourceSeq ri (ps.map (fun p => p.1.resource_index)) := by
  intro ps
  induction ps with
  | nil => intro date ri; simp [rowsGo, resourceSeq]
  | cons p rest ih =>
    intro date ri
    rcases p with ⟨item, sh⟩
    simp only [rowsGo, List.map_cons, resourceSeq]
    rcases hri : item.resource_index with _ | r <;> simp only [hri, Option.getD] <;>
      rw [ih]

theorem resourceSeq_length (ri : ℕ) (l : List (Option ℕ)) :
    (resourceSeq ri l).length = l.length := by
  induction l generalizing ri with
  | nil => rfl
  | cons o rest ih => simp [resourceSeq, ih]

theorem resourceSeq_mem_lt (len : ℕ) (l : List (Option ℕ))
    (hl : ∀ o ∈ l, ∀ r, o = some r → r < len) :
    ∀ ri, ri < len → ∀ x ∈ resourceSeq ri l, x < len := by
  induction l with
  | nil => intro ri hri x hx; simp [resourceSeq] at hx
  | cons o rest ih =>
    intro ri hri x hx
    simp only [resourceSeq, List.mem_cons] at hx
    have hhead : o.getD ri < len := by
      rcases o with _ | r
      · simpa using hri
      · simpa using hl (some r) (by simp) r rfl
    rcases hx with rfl | hx
    · exact hhead
    · exact ih (fun o' ho' => hl o' (by simp [ho'])) (o.getD ri) hhead x hx

theorem resourceSeq_get_some (l : List (Option ℕ)) :
    ∀ (ri : ℕ) (j : ℕ) (hj : j < l.length) (hj2 : j < (resourceSeq ri l).length) (r : ℕ),
      l.get ⟨j, hj⟩ = some r → (resourceSeq ri l).get ⟨j, hj2⟩ = r := by
  induction l with
  | nil => intro ri j hj; simp at hj
  | cons o rest ih =>
    intro ri j hj hj2 r hget
    rcases j with _ | j
    · simp only [List.get] at hget
      subst hget
      simp [resourceSeq]
    · simp only [List.get] at hget ⊢
      exact ih (o.getD ri) j (by simpa using hj) (by simpa [resourceSeq] using hj2) r hget

theorem resourceSeq_get_none (l : List (Option ℕ)) :
    ∀ (ri : ℕ) (j : ℕ) (hj : j < l.length) (hj2 : j < (resourceSeq ri l).length)
      (hj3 : j - 1 < (resourceSeq ri l).length),
      l.get ⟨j, hj⟩ = none → 0 < j →
      (resourceSeq ri l).get ⟨j, hj2⟩ = (resourceSeq ri l).get ⟨j - 1, hj3⟩ := by
  induction l with
  | nil => intro ri j hj; simp at hj
  | cons o rest ih =>
    intro ri j hj hj2 hj3 hget hpos
    rcases j with _ | j
    · omega
    · rcases j with _ | j
      · -- j = 1: the entry inherits the head value
        cases rest with
        | nil => simp at hj
        | cons o2 rest2 =>
          simp only [List.get] at hget ⊢
          subst hget
          simp [resourceSeq]
      · simp only [List.get] at hget ⊢
        have := ih (o.getD ri) (j + 1) (by simpa using hj)
          (by simpa [resourceSeq] using hj2) (by simpa [resourceSeq] using hj3) hget
          (by omega)
        simpa [resourceSeq] using this
theorem listGetMap {α β : Type _} (f : α → β) (l : List α) (j : ℕ)
    (hj : j < l.length) (hj2 : j < (l.map f).length) :
    (l.map f).get ⟨j, hj2⟩ = f (l.get ⟨j, hj⟩) := by
  simp

theorem listGetEq {α : Type _} (l l' : List α) (hll : l = l') (j : ℕ)
    (hj : j < l.length) (hj2 : j < l'.length) :
    l.get ⟨j, hj⟩ = l'.get ⟨j, hj2⟩ := by
  subst hll; rfl

/-- C3: for a schedule that passes validation, there is one row per item, every
row's resource index is `< len(resources)`, a row whose item carries a resource
index uses that index, and a row whose item omits it inherits the previous
row's resource index. -/
theorem rows_resource_index_invariant (tw mw h0 : ℚ) (cd : ChartData)
    (h : (processChartData tw mw h0 cd).isOk = true) :
    (rowsOf (processChartData tw mw h0 cd)).length = cd.items.length ∧
    (∀ row ∈ rowsOf (processChartData tw mw h0 cd),
      row.resource_index < cd.resources.length) ∧
    ∀ (j : ℕ) (hjr : j < (rowsOf (processChartData tw mw h0 cd)).length)
      (hji : j < cd.items.length)
      (hjp : j - 1 < (rowsOf (processChartData tw mw h0 cd)).length),
      (∀ r, (cd.items.get ⟨j, hji⟩).resource_index = some r →
        ((rowsOf (processChartData tw mw h0 cd)).get ⟨j, hjr⟩).resource_index = r) ∧
      ((cd.items.get ⟨j, hji⟩).resource_index = none → 0 < j →
        ((rowsOf (processChartData tw mw h0 cd)).get ⟨j, hjr⟩).resource_index =
          ((rowsOf (processChartData tw mw h0 cd)).get ⟨j - 1, hjp⟩).resource_index) := by
  obtain ⟨hlen, st, hp⟩ := process_isOk_elim tw mw h0 cd h
  have hrows : rowsOf (processChartData tw mw h0 cd) =
      rowsGo tw (⟨10, 80, 10, 10⟩ : Gutter).left (startSnap st)
        (buildCols mw (endSnap st) (startMonthIdx st)).2.2
        (buildCols mw (endSnap st) (startMonthIdx st)).2.1 (startSnap st) 0
        (cd.items.zip st.shadow_durations) := by
    simp only [processChartData_ok_eq tw mw h0 cd st hlen hp, rowsOf]
  have hmap : (rowsOf (processChartData tw mw h0 cd)).map (·.resource_index) =
      resourceSeq 0 (cd.items.map (·.resource_index)) := by
    rw [hrows, rowsGo_resourceSeq]
    have hle : cd.items.length ≤ st.shadow_durations.length :=
      le_of_eq (pass1_shadow_length cd st hp).symm
    have hfst : (cd.items.zip st.shadow_durations).map Prod.fst = cd.items :=
      List.map_fst_zip _ _ hle
    have hmm : ∀ (l : List (ItemData × Option ℤ)),
        l.map (fun p => p.1.resource_index) =
          (l.map Prod.fst).map (fun it => it.resource_index) := by
      intro l
      rw [List.map_map]
      rfl
    rw [hmm, hfst]
  have hlength : (rowsOf (processChartData tw mw h0 cd)).length = cd.items.length := by
    have h2 := congrArg List.length hmap
    simpa [resourceSeq_length] using h2
  have hfacts : (∀ it ∈ cd.items, ∀ ri, it.resource_index = some ri →
      ri < cd.resources.length) ∧ 0 < cd.resources.length := by
    rcases hitems : cd.items with _ | ⟨it0, rest⟩
    · rw [hitems] at hlen
      simp at hlen
    · have hok1 : (pass1 cd).isOk = true := by rw [hp]; rfl
      have hcond := (pass1_ok_iff cd).mp hok1
      rw [hitems] at hcond
      rw [forall_stepCond_iff cd.resources.length it0 rest] at hcond
      obtain ⟨hs0, hr0, hrange⟩ := hcond
      obtain ⟨r0, hr0v⟩ := Option.isSome_iff_exists.mp hr0
      have h1 := hrange it0 (List.mem_cons_self _ _) r0 hr0v
      constructor
      · intro it hit
        exact hrange it hit
      · omega
  obtain ⟨hrange, hlen0⟩ := hfacts
  have hrangeRows : ∀ row ∈ rowsOf (processChartData tw mw h0 cd),
      row.resource_index < cd.resources.length := by
    intro row hrow
    have hm : row.resource_index ∈
        (rowsOf (processChartData tw mw h0 cd)).map (·.resource_index) :=
      List.mem_map_of_mem _ hrow
    rw [hmap] at hm
    refine resourceSeq_mem_lt cd.resources.length _ ?_ 0 hlen0 _ hm
    intro o ho r hr
    obtain ⟨it, hit, hoe⟩ := List.mem_map.mp ho
    exact hrange it hit r (hoe.trans hr)
  refine ⟨hlength, hrangeRows, ?_⟩
  intro j hjr hji hjp
  have hjq : j < (resourceSeq 0 (cd.items.map (·.resource_index))).length := by
    rw [resourceSeq_length]
    simpa using hji
  have hjm : j < (cd.items.map (·.resource_index)).length := by simpa using hji
  have key : ∀ (i : ℕ) (hir : i < (rowsOf (processChartData tw mw h0 cd)).length)
      (hiq : i < (resourceSeq 0 (cd.items.map (·.resource_index))).length),
      ((rowsOf (processChartData tw mw h0 cd)).get ⟨i, hir⟩).resource_index =
        (resourceSeq 0 (cd.items.map (·.resource_index))).get ⟨i, hiq⟩ := by
    intro i hir hiq
    have h1 : i < ((rowsOf (processChartData tw mw h0 cd)).map (·.resource_index)).length := by
      simpa using hir
    have h2 := listGetMap (fun row : RowRenderData => row.resource_index)
      (rowsOf (processChartData tw mw h0 cd)) i hir h1
    rw [← h2]
    exact listGetEq _ _ hmap i h1 hiq
  constructor
  · intro r hr
    rw [key j hjr hjq]
    refine resourceSeq_get_some _ 0 j hjm hjq r ?_
    rw [listGetMap _ cd.items j hji hjm]
    exact hr
  · intro hnone hj0
    have hjq2 : j - 1 < (resourceSeq 0 (cd.items.map (·.resource_index))).length := by
      omega
    rw [key j hjr hjq, key (j - 1) hjp hjq2]
    refine resourceSeq_get_none _ 0 j hjm hjq hjq2 ?_ hj0
    rw [listGetMap _ cd.items j hji hjm]
    exact hnone

theorem rows_resource_index_invariant_witness :
    (rowsOf (processChartData 210 80 0 sampleChart)).length = sampleChart.items.length ∧
    ∀ row ∈ rowsOf (processChartData 210 80 0 sampleChart),
      row.resource_index < sampleChart.resources.length :=
  ⟨(rows_resource_index_invariant 210 80 0 sampleChart (by decide)).1,
   (rows_resource_index_invariant 210 80 0 sampleChart (by decide)).2.1⟩
/-! ## C5: cursor vs. weekend snap on the first item -/

/-- A first item whose explicit start instant, day 19728 (2024-01-06), is a
Saturday: it exposes the difference between the raw cursor and the snapped
running start date. -/
def itemS : ItemData :=
  { title := "S", duration := none, duration_ms := none, start_ms := none,
    start_date := some 19728, resource_index := some 0, open_ := none }

/-- C5 counterexample: with a Saturday start instant 19728 on the first item,
the first pass leaves the cursor (`date`) at the raw instant 19728, not at the
snapped value `weekendSnap 19728 = 19730`; only the running `start_date` is
snapped. The spec's words, that the cursor jumps to the snapped instant, do
not hold of the code. -/
theorem first_item_cursor_snap_cex :
    pass1Step 1 0 initState itemS = .ok ⟨19730, 19728, 19728, [none]⟩ ∧
    weekendSnap 19728 = 19730 ∧ (19728 : ℤ) ≠ 19730 :=
  ⟨by decide, by decide, by decide⟩

/-- C5 (amended): when the first item carries an explicit start instant `d`
(below the `NaiveDateTime::MAX` sentinel), the snapped value `weekendSnap d`
seeds the running `start_date`, while the cursor itself jumps to the raw
instant `d` and is advanced by the shadow duration only when the item also
carries a duration; the weekend snap applies to `start_date` alone. -/
theorem first_item_cursor_raw (resLen : ℕ) (item : ItemData) (st' : Pass1State) (d : ℤ)
    (hsd : item.start_date = some d) (hd : d < dateMAX)
    (hok : pass1Step resLen 0 initState item = .ok st') :
    st'.start_date = weekendSnap d ∧
    st'.date = (match item.duration with
      | some k => d + shadowOf d k
      | none => d) := by
  have hinv := pass1Step_inv resLen 0 initState item st' hok
  rw [hsd] at hinv
  constructor
  · rw [hinv.1]
    simp [initState, hd]
  · rw [hinv.2.1]
    rcases item.duration with _ | k <;> simp

theorem first_item_cursor_raw_witness :
    itemS.start_date = some 19728 ∧ (19728 : ℤ) < dateMAX ∧
    ((⟨19730, 19728, 19728, [none]⟩ : Pass1State).start_date = weekendSnap 19728 ∧
      (⟨19730, 19728, 19728, [none]⟩ : Pass1State).date =
        (match itemS.duration with
          | some k => 19728 + shadowOf 19728 k
          | none => (19728 : ℤ))) :=
  ⟨rfl, by decide,
   first_item_cursor_raw 1 itemS ⟨19730, 19728, 19728, [none]⟩ 19728 rfl (by decide) (by decide)⟩

/-! ## C4: milestones and positive lengths -/

/-- A milestone (no duration) carrying an explicit start instant. -/
def itemM : ItemData :=
  { title := "M", duration := none, duration_ms := none, start_ms := none,
    start_date := some 19731, resource_index := none, open_ := none }

theorem forall2_get {α β : Type _} {R : α → β → Prop} {l1 : List α} {l2 : List β}
    (hf : List.Forall₂ R l1 l2) :
    ∀ (j : ℕ) (h1 : j < l1.length) (h2 : j < l2.length),
      R (l1.get ⟨j, h1⟩) (l2.get ⟨j, h2⟩) := by
  induction hf with
  | nil => intro j h1; simp at h1
  | cons hr hrest ih =>
    intro j h1 h2
    cases j with
    | zero => exact hr
    | succ j => exact ih j (by simpa using h1) (by simpa using h2)

/-- The lengths produced by the row loop: each row maps its shadow duration
through `k / num_item_days * all_items_width`. -/
theorem rowsGo_lengths (tw gl : ℚ) (s : ℤ) (n : ℕ) (w : ℚ) :
    ∀ (ps : List (ItemData × Option ℤ)) (date : ℤ) (ri : ℕ),
      (rowsGo tw gl s n w date ri ps).map (·.length) =
        ps.map (fun p => p.2.map (fun (k : ℤ) => (k : ℚ) / (n : ℚ) * w)) := by
  intro ps
  induction ps with
  | nil => intro date ri; simp [rowsGo]
  | cons p rest ih =>
    intro date ri
    rcases p with ⟨item, sh⟩
    rcases sh with _ | k <;> simp [rowsGo, ih]

/-- The shadow list recorded by the first pass relates to the items pointwise:
an entry is absent exactly for a milestone, and a task's entry is the weekend
extension of its nominal duration at some cursor value. -/
theorem pass1Go_shadow_rel (resLen : ℕ) (items : List ItemData) :
    ∀ (i : ℕ) (st st' : Pass1State), pass1Go resLen i st items = .ok st' →
      ∃ tail, st'.shadow_durations = st.shadow_durations ++ tail ∧
        List.Forall₂ (fun (it : ItemData) (sh : Option ℤ) =>
          (it.duration = none ∧ sh = none) ∨
          ∃ k c, it.duration = some k ∧ sh = some (shadowOf c k)) items tail := by
  induction items with
  | nil =>
    intro i st st' h
    simp only [pass1Go] at h
    injection h with h
    subst h
    exact ⟨[], by simp, List.Forall₂.nil⟩
  | cons item rest ih =>
    intro i st st' h
    simp only [pass1Go] at h
    rcases hstep : pass1Step resLen i st item with e | st1
    · rw [hstep] at h
      exact absurd h (by simp)
    · rw [hstep] at h
      obtain ⟨tail, htail, hrel⟩ := ih (i + 1) st1 st' h
      have hinv := (pass1Step_inv resLen i st item st1 hstep).2.2.2
      refine ⟨(match item.duration with
        | some k => some (shadowOf (item.start_date.getD st.date) k)
        | none => none) :: tail, ?_, ?_⟩
      · rw [htail, hinv]
        simp
      · refine List.Forall₂.cons ?_ hrel
        rcases hdur : item.duration with _ | k
        · exact Or.inl ⟨rfl, rfl⟩
        · exact Or.inr ⟨k, item.start_date.getD st.date, rfl, rfl⟩

theorem buildColsGo_zero_width (endZ : ℤ) : ∀ (fuel : ℕ) (k : ℤ),
    (buildColsGo 0 endZ fuel k).2.1 = 0 := by
  intro fuel
  induction fuel with
  | zero => intro k; rfl
  | succ fuel ih =>
    intro k
    simp only [buildColsGo]
    split_ifs
    · simp [ih]
    · rfl

theorem buildColsGo_nonneg (maxW : ℚ) (endZ : ℤ) (hmw : 0 ≤ maxW) :
    ∀ (fuel : ℕ) (k : ℤ), 0 ≤ (buildColsGo maxW endZ fuel k).2.1 := by
  intro fuel
  induction fuel with
  | zero => intro k; simp [buildColsGo]
  | succ fuel ih =>
    intro k
    simp only [buildColsGo]
    split_ifs with hg
    · have hb := monthLen_bounds (k / 12) (k % 12 + 1) (by omega) (by omega)
      have hdim : (0 : ℚ) ≤ ((numDaysInMonth (k / 12) (k % 12 + 1) : ℤ) : ℚ) := by
        rw [numDaysInMonth_eq _ _ (by omega) (by omega)]
        exact_mod_cast le_trans (by norm_num) hb.1
      have h2 : 0 ≤ maxW * ((numDaysInMonth (k / 12) (k % 12 + 1) : ℤ) : ℚ) / 31 :=
        div_nonneg (mul_nonneg hmw hdim) (by norm_num)
      have h1 := ih (k + 1)
      dsimp only
      exact add_nonneg h2 h1
    · simp

theorem buildColsGo_pos (maxW : ℚ) (endZ : ℤ) (hmw : 0 < maxW) (fuel : ℕ) (k : ℤ)
    (hne : (buildColsGo maxW endZ fuel k).1 ≠ []) :
    0 < (buildColsGo maxW endZ fuel k).2.1 ∧ 0 < (buildColsGo maxW endZ fuel k).2.2 := by
  cases fuel with
  | zero => simp [buildColsGo] at hne
  | succ fuel =>
    simp only [buildColsGo] at hne ⊢
    split_ifs at hne ⊢ with hg
    · dsimp only at hne ⊢
      have hb := monthLen_bounds (k / 12) (k % 12 + 1) (by omega) (by omega)
      have he : numDaysInMonth (k / 12) (k % 12 + 1) = monthLen (k / 12) (k % 12 + 1) :=
        numDaysInMonth_eq _ _ (by omega) (by omega)
      have hdim : (0 : ℚ) < ((numDaysInMonth (k / 12) (k % 12 + 1) : ℤ) : ℚ) := by
        rw [he]
        exact_mod_cast lt_of_lt_of_le (by norm_num) hb.1
      constructor
      · have hrest := buildColsGo_nonneg maxW endZ (le_of_lt hmw) fuel (k + 1)
        have hw : 0 < maxW * ((numDaysInMonth (k / 12) (k % 12 + 1) : ℤ) : ℚ) / 31 :=
          div_pos (mul_pos hmw hdim) (by norm_num)
        linarith
      · have ht : 28 ≤ (numDaysInMonth (k / 12) (k % 12 + 1)).toNat := by
          rw [he]
          omega
        omega
    · simp at hne

theorem buildCols_pos (maxW : ℚ) (endZ : ℤ) (k : ℤ) (hmw : 0 < maxW)
    (hne : (buildCols maxW endZ k).1 ≠ []) :
    0 < (buildCols maxW endZ k).2.1 ∧ 0 < (buildCols maxW endZ k).2.2 := by
  simp only [buildCols] at hne ⊢
  exact buildColsGo_pos maxW endZ hmw _ _ hne
/-- C4 counterexample: (i) a milestone carrying an explicit start instant does
move the first-pass cursor (from 19730 to 19731); (ii) with the accepted
configuration `max_month_width = 0`, a chart passing validation yields rows of
length `some 0` for items with positive durations 5 and 3 — a present but not
positive length. -/
theorem milestone_positive_length_cex :
    (itemM.duration = none ∧
      pass1Step 1 1 ⟨19723, 19730, 19730, [some 7]⟩ itemM =
        .ok ⟨19723, 19731, 19731, [some 7, none]⟩ ∧
      (19731 : ℤ) ≠ 19730) ∧
    ((processChartData 210 0 0 sampleChart).isOk = true ∧
      sampleChart.items.map (·.duration) = [some 5, some 3] ∧
      (rowsOf (processChartData 210 0 0 sampleChart)).map (·.length) =
        [some 0, some 0]) := by
  refine ⟨⟨rfl, by decide, by decide⟩, by decide, rfl, ?_⟩
  have hst : pass1 sampleChart = .ok ⟨19723, 19733, 19733, [some 7, some 3]⟩ := by decide
  have hproc := processChartData_ok_eq 210 0 0 sampleChart
    ⟨19723, 19733, 19733, [some 7, some 3]⟩ (by decide) hst
  have hrows : rowsOf (processChartData 210 0 0 sampleChart) =
      rowsGo 210 (⟨10, 80, 10, 10⟩ : Gutter).left
        (startSnap ⟨19723, 19733, 19733, [some 7, some 3]⟩)
        (buildCols 0 (endSnap ⟨19723, 19733, 19733, [some 7, some 3]⟩)
          (startMonthIdx ⟨19723, 19733, 19733, [some 7, some 3]⟩)).2.2
        (buildCols 0 (endSnap ⟨19723, 19733, 19733, [some 7, some 3]⟩)
          (startMonthIdx ⟨19723, 19733, 19733, [some 7, some 3]⟩)).2.1
        (startSnap ⟨19723, 19733, 19733, [some 7, some 3]⟩) 0
        (sampleChart.items.zip [some 7, some 3]) := by
    simp only [hproc, rowsOf]
  have hw0 : (buildCols 0 (endSnap ⟨19723, 19733, 19733, [some 7, some 3]⟩)
      (startMonthIdx ⟨19723, 19733, 19733, [some 7, some 3]⟩)).2.1 = 0 := by
    simp only [buildCols]
    exact buildColsGo_zero_width _ _ _
  rw [hrows, rowsGo_lengths, hw0]
  simp [sampleChart]

/-- C4 (amended): a milestone always yields a row with absent length, and it
leaves the cursor unchanged in both passes only when it carries no explicit
start instant (an explicit start instant moves the cursor in both passes); an
item with a positive duration yields a row with a positive length provided the
configured `max_month_width` is positive and the column list is nonempty. -/
theorem milestone_and_positive_length (tw mw h0 : ℚ) (cd : ChartData)
    (h : (processChartData tw mw h0 cd).isOk = true) :
    (∀ (resLen i : ℕ) (st st' : Pass1State) (item : ItemData),
      item.duration = none → item.start_date = none →
      pass1Step resLen i st item = .ok st' → st'.date = st.date) ∧
    (∀ (tw2 gl : ℚ) (s : ℤ) (n : ℕ) (w : ℚ) (date : ℤ) (ri : ℕ)
      (item : ItemData) (rest : List (ItemData × Option ℤ)), item.start_date = none →
      ∃ row, rowsGo tw2 gl s n w date ri ((item, none) :: rest) =
        row :: rowsGo tw2 gl s n w date (item.resource_index.getD ri) rest ∧
        row.length = none) ∧
    ∀ (j : ℕ) (hjr : j < (rowsOf (processChartData tw mw h0 cd)).length)
      (hji : j < cd.items.length),
      ((cd.items.get ⟨j, hji⟩).duration = none →
        ((rowsOf (processChartData tw mw h0 cd)).get ⟨j, hjr⟩).length = none) ∧
      (0 < mw → colsOf (processChartData tw mw h0 cd) ≠ [] →
        ∀ k, (cd.items.get ⟨j, hji⟩).duration = some k → 0 < k →
        ∃ q, ((rowsOf (processChartData tw mw h0 cd)).get ⟨j, hjr⟩).length = some q ∧
          0 < q) := by
  obtain ⟨hlen, st, hp⟩ := process_isOk_elim tw mw h0 cd h
  have hproc := processChartData_ok_eq tw mw h0 cd st hlen hp
  refine ⟨?_, ?_, ?_⟩
  · intro resLen i st1 st' item hdur hsd hok
    have hinv := pass1Step_inv resLen i st1 item st' hok
    rw [hdur, hsd] at hinv
    simpa using hinv.2.1
  · intro tw2 gl s n w date ri item rest hsd
    refine ⟨⟨item.title, item.resource_index.getD ri,
      tw2 + gl + (((date - s : ℤ) : ℚ) / (n : ℚ)) * w, none, item.open_.getD false⟩, ?_, rfl⟩
    simp only [rowsGo, hsd]
    rcases item.resource_index with _ | r <;> simp [Option.getD]
  · have hrows : rowsOf (processChartData tw mw h0 cd) =
        rowsGo tw (⟨10, 80, 10, 10⟩ : Gutter).left (startSnap st)
          (buildCols mw (endSnap st) (startMonthIdx st)).2.2
          (buildCols mw (endSnap st) (startMonthIdx st)).2.1 (startSnap st) 0
          (cd.items.zip st.shadow_durations) := by
      simp only [hproc, rowsOf]
    have hcols : colsOf (processChartData tw mw h0 cd) =
        (buildCols mw (endSnap st) (startMonthIdx st)).1 := by
      simp only [hproc, colsOf]
    have hsh : st.shadow_durations.length = cd.items.length := pass1_shadow_length cd st hp
    have hrel : List.Forall₂ (fun (it : ItemData) (sh : Option ℤ) =>
        (it.duration = none ∧ sh = none) ∨
        ∃ k c, it.duration = some k ∧ sh = some (shadowOf c k)) cd.items st.shadow_durations := by
      obtain ⟨tail, htail, hr⟩ :=
        pass1Go_shadow_rel cd.resources.length cd.items 0 initState st hp
      have he : tail = st.shadow_durations := by
        simpa [initState] using htail.symm
      rwa [he] at hr
    have hmapLen : (rowsOf (processChartData tw mw h0 cd)).map (·.length) =
        st.shadow_durations.map (fun sh => sh.map (fun (k : ℤ) =>
          (k : ℚ) / ((buildCols mw (endSnap st) (startMonthIdx st)).2.2 : ℚ) *
            (buildCols mw (endSnap st) (startMonthIdx st)).2.1)) := by
      rw [hrows, rowsGo_lengths]
      have hmm2 : ∀ (l : List (ItemData × Option ℤ)) (f : ℤ → ℚ),
          l.map (fun p => p.2.map f) = (l.map Prod.snd).map (fun sh => sh.map f) := by
        intro l f
        rw [List.map_map]
        rfl
      rw [hmm2, List.map_snd_zip _ _ (le_of_eq hsh)]
    intro j hjr hji
    have hjs : j < st.shadow_durations.length := by omega
    have hkey : ((rowsOf (processChartData tw mw h0 cd)).get ⟨j, hjr⟩).length =
        (st.shadow_durations.get ⟨j, hjs⟩).map (fun (k : ℤ) =>
          (k : ℚ) / ((buildCols mw (endSnap st) (startMonthIdx st)).2.2 : ℚ) *
            (buildCols mw (endSnap st) (startMonthIdx st)).2.1) := by
      have h1 : j < ((rowsOf (processChartData tw mw h0 cd)).map (·.length)).length := by
        simpa using hjr
      have h2 : j < (st.shadow_durations.map (fun sh => sh.map (fun (k : ℤ) =>
          (k : ℚ) / ((buildCols mw (endSnap st) (startMonthIdx st)).2.2 : ℚ) *
            (buildCols mw (endSnap st) (startMonthIdx st)).2.1))).length := by
        simpa using hjs
      have e1 := listGetMap (fun r : RowRenderData => r.length)
        (rowsOf (processChartData tw mw h0 cd)) j hjr h1
      have e2 := listGetMap (fun sh : Option ℤ => sh.map (fun (k : ℤ) =>
          (k : ℚ) / ((buildCols mw (endSnap st) (startMonthIdx st)).2.2 : ℚ) *
            (buildCols mw (endSnap st) (startMonthIdx st)).2.1))
        st.shadow_durations j hjs h2
      rw [← e1, ← e2]
      exact listGetEq _ _ hmapLen j h1 h2
    have hrelj := forall2_get hrel j hji hjs
    constructor
    · intro hdnone
      rcases hrelj with ⟨_, hshn⟩ | ⟨k, c, hdk, _⟩
      · rw [hkey, hshn]
        rfl
      · rw [hdnone] at hdk
        exact absurd hdk (by simp)
    · intro hmw hne k hdk hkpos
      rcases hrelj with ⟨hdn, _⟩ | ⟨k2, c, hdk2, hshv⟩
      · rw [hdk] at hdn
        exact absurd hdn (by simp)
      · have hk2 : k = k2 := by
          rw [hdk] at hdk2
          injection hdk2 with h2
        subst hk2
        rw [hkey, hshv]
        rw [hcols] at hne
        have hpos := buildCols_pos mw (endSnap st) (startMonthIdx st) hmw hne
        have hshadow_ge : k ≤ shadowOf c k := by
          simp only [shadowOf]
          split_ifs <;> omega
        have h1 : (0 : ℚ) < ((shadowOf c k : ℤ) : ℚ) := by
          exact_mod_cast (by omega : (0 : ℤ) < shadowOf c k)
        have h2 : (0 : ℚ) < (((buildCols mw (endSnap st) (startMonthIdx st)).2.2 : ℕ) : ℚ) := by
          exact_mod_cast hpos.2
        exact ⟨_, rfl, mul_pos (div_pos h1 h2) hpos.1⟩

theorem milestone_and_positive_length_witness :
    (processChartData 210 80 0 sampleChart).isOk = true ∧
    ∃ q, ((rowsOf (processChartData 210 80 0 sampleChart)).get
        ⟨0, by decide⟩).length = some q ∧ 0 < q :=
  ⟨by decide,
   ((milestone_and_positive_length 210 80 0 sampleChart (by decide)).2.2 0
       (by decide) (by decide)).2 (by decide) (by decide) 5 (by decide) (by decide)⟩
/-! ## C10: zero and negative durations are accepted -/

def itemAneg : ItemData :=
  { title := "A", duration := some 5, duration_ms := none, start_ms := none,
    start_date := some 19723, resource_index := some 0, open_ := none }

def itemBneg : ItemData :=
  { title := "B", duration := some (-7), duration_ms := none, start_ms := none,
    start_date := none, resource_index := none, open_ := none }

/-- A chart passing validation whose second task has duration `-7`. -/
def cdNeg : ChartData :=
  { title := "Neg", marked_date := none, resources := ["R1"],
    items := [itemAneg, itemBneg] }

/-- C10: no validation rejects a zero or negative duration `d ≤ 0`: the step
succeeds or fails independently of the duration, a successful step records the
shadow duration `shadowOf cursor d` and moves the cursor by it, a row built
from such a recorded shadow has a present length `d_shadow / total_days *
total_width`, and in the concrete chart `cdNeg` (durations 5 and -7) the
second row's rendered length is present and negative. -/
theorem negative_duration_accepted (resLen i : ℕ) (st st' : Pass1State)
    (item : ItemData) (d : ℤ) (hd : d ≤ 0) (hdur : item.duration = some d)
    (hok : pass1Step resLen i st item = .ok st') :
    (pass1Step resLen i st { item with duration := none }).isOk = true ∧
    (st'.shadow_durations = st.shadow_durations ++
        [some (shadowOf (item.start_date.getD st.date) d)] ∧
      st'.date = item.start_date.getD st.date +
        shadowOf (item.start_date.getD st.date) d) ∧
    (∀ (tw gl : ℚ) (s : ℤ) (n : ℕ) (w : ℚ) (date : ℤ) (ri : ℕ)
        (rest : List (ItemData × Option ℤ)),
      ∃ row tail2,
        rowsGo tw gl s n w date ri
            ((item, some (shadowOf (item.start_date.getD st.date) d)) :: rest) =
          row :: tail2 ∧
        row.length = some
          (((shadowOf (item.start_date.getD st.date) d : ℤ) : ℚ) / (n : ℚ) * w)) ∧
    ∃ q, ((rowsOf (processChartData 210 80 0 cdNeg)).get ⟨1, by decide⟩).length =
        some q ∧ q < 0 := by
  refine ⟨?_, ?_, ?_, ?_⟩
  · have h1 : stepCond resLen i item := (pass1Step_isOk resLen i st item).mp (by rw [hok]; rfl)
    rw [pass1Step_isOk]
    obtain ⟨a, b, c⟩ := h1
    exact ⟨by simpa using a, by simpa using b, by simpa using c⟩
  · have hinv := pass1Step_inv resLen i st item st' hok
    rw [hdur] at hinv
    exact ⟨by simpa using hinv.2.2.2, by simpa using hinv.2.1⟩
  · intro tw gl s n w date ri rest
    exact ⟨_, _, rfl, rfl⟩
  · have hst : pass1 cdNeg = .ok ⟨19723, 19730, 19723, [some 7, some (-7)]⟩ := by decide
    have hproc := processChartData_ok_eq 210 80 0 cdNeg
      ⟨19723, 19730, 19723, [some 7, some (-7)]⟩ (by decide) hst
    set B := buildCols 80 (endSnap ⟨19723, 19730, 19723, [some 7, some (-7)]⟩)
      (startMonthIdx ⟨19723, 19730, 19723, [some 7, some (-7)]⟩) with hB
    have hrows : rowsOf (processChartData 210 80 0 cdNeg) =
        rowsGo 210 (⟨10, 80, 10, 10⟩ : Gutter).left
          (startSnap ⟨19723, 19730, 19723, [some 7, some (-7)]⟩) B.2.2 B.2.1
          (startSnap ⟨19723, 19730, 19723, [some 7, some (-7)]⟩) 0
          (cdNeg.items.zip [some 7, some (-7)]) := by
      simp only [hproc, rowsOf]
    have hpos : 0 < B.2.1 ∧ 0 < B.2.2 := by
      rw [hB]
      exact buildCols_pos _ _ _ (by decide) (by decide)
    have h1 : (1 : ℕ) < (rowsOf (processChartData 210 80 0 cdNeg)).length := by decide
    have h2 : (1 : ℕ) < ((rowsOf (processChartData 210 80 0 cdNeg)).map (·.length)).length := by
      simpa using h1
    have e1 := listGetMap (fun r : RowRenderData => r.length)
      (rowsOf (processChartData 210 80 0 cdNeg)) 1 h1 h2
    have hmap2 : (rowsOf (processChartData 210 80 0 cdNeg)).map (·.length) =
        [some (((7 : ℤ) : ℚ) / (B.2.2 : ℚ) * B.2.1),
         some (((-7 : ℤ) : ℚ) / (B.2.2 : ℚ) * B.2.1)] := by
      rw [hrows, rowsGo_lengths]
      simp [cdNeg, itemAneg, itemBneg]
    have hv : ((rowsOf (processChartData 210 80 0 cdNeg)).get ⟨1, h1⟩).length =
        some (((-7 : ℤ) : ℚ) / (B.2.2 : ℚ) * B.2.1) := by
      rw [← e1]
      rw [listGetEq _ _ hmap2 1 h2 (by simp)]
      rfl
    refine ⟨((-7 : ℤ) : ℚ) / (B.2.2 : ℚ) * B.2.1, hv, ?_⟩
    have hn : (0 : ℚ) < (B.2.2 : ℚ) := by exact_mod_cast hpos.2
    have hneg7 : ((-7 : ℤ) : ℚ) < 0 := by norm_num
    exact mul_neg_of_neg_of_pos (div_neg_of_neg_of_pos hneg7 hn) hpos.1

theorem negative_duration_accepted_witness :
    (-7 : ℤ) ≤ 0 ∧ itemBneg.duration = some (-7) ∧
    pass1Step 1 1 ⟨19723, 19730, 19730, [some 7]⟩ itemBneg =
      .ok ⟨19723, 19730, 19723, [some 7, some (-7)]⟩ ∧
    (pass1Step 1 1 ⟨19723, 19730, 19730, [some 7]⟩
        { itemBneg with duration := none }).isOk = true :=
  ⟨by decide, rfl, by decide,
   (negative_duration_accepted 1 1 ⟨19723, 19730, 19730, [some 7]⟩
     ⟨19723, 19730, 19723, [some 7, some (-7)]⟩ itemBneg (-7) (by decide) rfl
     (by decide)).1⟩

/-! ## C7: monotone row offsets -/

/-- The cursor value at each row of the geometry pass: the row's effective
start date (explicit start instant, or the running cursor), threading the
cursor advance by the recorded shadow duration. -/
def rowStarts : ℤ → List (ItemData × Option ℤ) → List ℤ
  | _, [] => []
  | date, (item, sh) :: rest =>
    let date1 := match item.start_date with | some d => d | none => date
    let date2 := match sh with | some k => date1 + k | none => date1
    date1 :: rowStarts date2 rest

/-- Executable check that an integer list is non-decreasing. -/
def chainLE : List ℤ → Bool
  | [] => true
  | [_] => true
  | a :: b :: rest => decide (a ≤ b) && chainLE (b :: rest)

theorem chainLE_chain' : ∀ l : List ℤ, chainLE l = true → List.Chain' (· ≤ ·) l := by
  intro l
  induction l with
  | nil => intro _; simp
  | cons a rest ih =>
    cases rest with
    | nil => intro _; simp
    | cons b rest2 =>
      intro h
      simp only [chainLE, Bool.and_eq_true, decide_eq_true_eq] at h
      exact List.chain'_cons.mpr ⟨h.1, ih h.2⟩

theorem rowsGo_offsets (tw gl : ℚ) (s : ℤ) (n : ℕ) (w : ℚ) :
    ∀ (ps : List (ItemData × Option ℤ)) (date : ℤ) (ri : ℕ),
      (rowsGo tw gl s n w date ri ps).map (·.offset) =
        (rowStarts date ps).map (fun z => tw + gl + (((z - s : ℤ) : ℚ) / (n : ℚ)) * w) := by
  intro ps
  induction ps with
  | nil => intro date ri; simp [rowsGo, rowStarts]
  | cons p rest ih =>
    intro date ri
    rcases p with ⟨item, sh⟩
    cases hsd : item.start_date <;> cases hsh : sh <;>
      simp [rowsGo, rowStarts, ih, hsd, hsh]

/-- C7: for a schedule passing validation whose per-row start dates (the
cursor values of the geometry pass) are in non-decreasing order, the row
horizontal offsets are monotonically non-decreasing, for any non-negative
`max_month_width`. -/
theorem row_offsets_monotone (tw mw h0 : ℚ) (cd : ChartData) (st : Pass1State)
    (hp : pass1 cd = .ok st) (hlen : ¬ cd.items.length < 2) (hmw : 0 ≤ mw)
    (hchron : chainLE
      (rowStarts (startSnap st) (cd.items.zip st.shadow_durations)) = true) :
    List.Chain' (· ≤ ·) ((rowsOf (processChartData tw mw h0 cd)).map (·.offset)) := by
  have hchron2 := chainLE_chain' _ hchron
  have hproc := processChartData_ok_eq tw mw h0 cd st hlen hp
  have hrows : rowsOf (processChartData tw mw h0 cd) =
      rowsGo tw (⟨10, 80, 10, 10⟩ : Gutter).left (startSnap st)
        (buildCols mw (endSnap st) (startMonthIdx st)).2.2
        (buildCols mw (endSnap st) (startMonthIdx st)).2.1 (startSnap st) 0
        (cd.items.zip st.shadow_durations) := by
    simp only [hproc, rowsOf]
  rw [hrows, rowsGo_offsets, List.chain'_map]
  refine List.Chain'.imp ?_ hchron2
  intro a b hab
  have hw : 0 ≤ (buildCols mw (endSnap st) (startMonthIdx st)).2.1 := by
    simp only [buildCols]
    exact buildColsGo_nonneg mw (endSnap st) hmw _ _
  have hdivle : ((a - startSnap st : ℤ) : ℚ) /
        ((buildCols mw (endSnap st) (startMonthIdx st)).2.2 : ℚ) ≤
      ((b - startSnap st : ℤ) : ℚ) /
        ((buildCols mw (endSnap st) (startMonthIdx st)).2.2 : ℚ) := by
    rcases Nat.eq_zero_or_pos (buildCols mw (endSnap st) (startMonthIdx st)).2.2 with hz | hpn
    · rw [hz]
      simp
    · have hc : (0 : ℚ) < ((buildCols mw (endSnap st) (startMonthIdx st)).2.2 : ℚ) := by
        exact_mod_cast hpn
      have hcast : ((a - startSnap st : ℤ) : ℚ) ≤ ((b - startSnap st : ℤ) : ℚ) := by
        exact_mod_cast sub_le_sub_right hab _
      exact (div_le_div_iff_of_pos_right hc).mpr hcast
  exact add_le_add_left (mul_le_mul_of_nonneg_right hdivle hw) _

theorem row_offsets_monotone_witness :
    chainLE (rowStarts
      (startSnap ⟨19723, 19733, 19733, [some 7, some 3]⟩)
      (sampleChart.items.zip
        (⟨19723, 19733, 19733, [some 7, some 3]⟩ : Pass1State).shadow_durations)) = true ∧
    List.Chain' (· ≤ ·) ((rowsOf (processChartData 210 80 0 sampleChart)).map (·.offset)) :=
  ⟨by decide,
   row_offsets_monotone 210 80 0 sampleChart ⟨19723, 19733, 19733, [some 7, some 3]⟩
     (by decide) (by decide) (by decide) (by decide)⟩
/-! ## C8: the RNG draw only affects resource colors -/

/-- Everything the layout computes except the stylesheet: title, gutters and
scalar geometry, marked-date offset, columns, rows and resources. -/
def geometryView (rd : RenderData) :
    String × Gutter × Gutter × ℚ × Gutter × ℚ × Option ℚ × ℚ × ℚ × ℚ ×
      List ColumnRenderData × List RowRenderData × List String :=
  (rd.title, rd.gutter, rd.row_gutter, rd.row_height, rd.resource_gutter,
   rd.resource_height, rd.marked_date_offset, rd.title_width, rd.max_month_width,
   rd.rect_corner_radius, rd.cols, rd.rows, rd.resources)

/-- C8: two runs on the same input with different initial hue draws produce
identical geometry — same columns, rows (offsets, lengths, resource indices),
marked-date offset, and derived canvas dimensions; only the styles differ. -/
theorem rng_only_colors (tw mw h0 h0' : ℚ) (cd : ChartData) (add : Bool) :
    (processChartData tw mw h0 cd).map geometryView =
      (processChartData tw mw h0' cd).map geometryView ∧
    ∀ rd rd', processChartData tw mw h0 cd = .ok rd →
      processChartData tw mw h0' cd = .ok rd' →
      canvasWidth rd = canvasWidth rd' ∧
      canvasHeight add rd = canvasHeight add rd' ∧
      rd.cols = rd'.cols ∧ rd.rows = rd'.rows ∧
      rd.marked_date_offset = rd'.marked_date_offset := by
  constructor
  · simp only [processChartData]
    split_ifs
    · rfl
    · rcases hp : pass1 cd with e | st
      · rfl
      · rfl
  · intro rd rd' h1 h2
    by_cases hlen : cd.items.length < 2
    · simp only [processChartData, if_pos hlen] at h1
      exact absurd h1 (by simp)
    · rcases hp : pass1 cd with e | st
      · simp only [processChartData, if_neg hlen, hp] at h1
        exact absurd h1 (by simp)
      · have e1 := processChartData_ok_eq tw mw h0 cd st hlen hp
        have e2 := processChartData_ok_eq tw mw h0' cd st hlen hp
        rw [e1] at h1
        rw [e2] at h2
        injection h1 with h1
        injection h2 with h2
        subst h1
        subst h2
        exact ⟨rfl, rfl, rfl, rfl, rfl⟩

theorem rng_only_colors_witness :
    (processChartData 210 80 0 sampleChart).map geometryView =
      (processChartData 210 80 (1 / 3) sampleChart).map geometryView :=
  (rng_only_colors 210 80 0 (1 / 3) sampleChart true).1

/-! ## C9: durationMs and startMs are never read -/

/-- Item equality on every field except `duration_ms` and `start_ms`. -/
def sameCore (i1 i2 : ItemData) : Prop :=
  i1.title = i2.title ∧ i1.duration = i2.duration ∧ i1.start_date = i2.start_date ∧
  i1.resource_index = i2.resource_index ∧ i1.open_ = i2.open_

/-- Chart equality up to the items' `duration_ms` and `start_ms` fields. -/
def sameItems (cd1 cd2 : ChartData) : Prop :=
  cd1.title = cd2.title ∧ cd1.marked_date = cd2.marked_date ∧
  cd1.resources = cd2.resources ∧ List.Forall₂ sameCore cd1.items cd2.items

theorem pass1Step_sameCore (resLen i : ℕ) (st : Pass1State) {i1 i2 : ItemData}
    (h : sameCore i1 i2) :
    pass1Step resLen i st i1 = pass1Step resLen i st i2 := by
  rcases i1 with ⟨t1, d1, dm1, sm1, sd1, ri1, o1⟩
  rcases i2 with ⟨t2, d2, dm2, sm2, sd2, ri2, o2⟩
  obtain ⟨ht, hd, hsd, hri, ho⟩ := h
  simp only at ht hd hsd hri ho
  subst ht
  subst hd
  subst hsd
  subst hri
  subst ho
  rfl

theorem pass1Go_sameCore (resLen : ℕ) {l1 l2 : List ItemData}
    (h : List.Forall₂ sameCore l1 l2) :
    ∀ (i : ℕ) (st : Pass1State), pass1Go resLen i st l1 = pass1Go resLen i st l2 := by
  induction h with
  | nil => intro i st; rfl
  | cons hc hrest ih =>
    intro i st
    simp only [pass1Go]
    rw [pass1Step_sameCore resLen i st hc]
    cases pass1Step resLen i st _ with
    | error e => rfl
    | ok st1 => exact ih (i + 1) st1

theorem rowsGo_sameCore (tw gl : ℚ) (s : ℤ) (n : ℕ) (w : ℚ) :
    ∀ {l1 l2 : List ItemData}, List.Forall₂ sameCore l1 l2 →
      ∀ (sh : List (Option ℤ)) (date : ℤ) (ri : ℕ),
        rowsGo tw gl s n w date ri (l1.zip sh) = rowsGo tw gl s n w date ri (l2.zip sh) := by
  intro l1 l2 h
  induction h with
  | nil => intro sh date ri; rfl
  | cons hc hrest ih =>
    intro sh date ri
    cases sh with
    | nil => rfl
    | cons s0 shrest =>
      obtain ⟨ht, hd, hsd, hri, ho⟩ := hc
      simp only [List.zip_cons_cons, rowsGo, ht, hsd, hri, ho]
      exact congrArg _ (ih shrest _ _)

/-- C9: two charts that differ only in the items' `durationMs` and `startMs`
fields produce the same layout result and the same drawing tree: those fields
are accepted by the input type but never read. -/
theorem duration_ms_ignored (tw mw h0 : ℚ) (add : Bool) (cd1 cd2 : ChartData)
    (h : sameItems cd1 cd2) :
    processChartData tw mw h0 cd1 = processChartData tw mw h0 cd2 ∧
    runChart tw mw h0 add cd1 = runChart tw mw h0 add cd2 := by
  obtain ⟨ht, hmd, hres, hitems⟩ := h
  have hlen : cd1.items.length = cd2.items.length := hitems.length_eq
  have hpass : pass1 cd1 = pass1 cd2 := by
    simp only [pass1, hres]
    exact pass1Go_sameCore _ hitems 0 initState
  have hmain : processChartData tw mw h0 cd1 = processChartData tw mw h0 cd2 := by
    simp only [processChartData, hlen, ht, hmd, hres, hpass]
    split_ifs with hc
    · rfl
    · rcases hp : pass1 cd2 with e | st
      · rfl
      · dsimp only
        rw [rowsGo_sameCore tw 10 (startSnap st)
          (buildCols mw (endSnap st) (startMonthIdx st)).2.2
          (buildCols mw (endSnap st) (startMonthIdx st)).2.1 hitems
          st.shadow_durations (startSnap st) 0]
  have hrun : runChart tw mw h0 add cd1 = runChart tw mw h0 add cd2 := by
    simp only [runChart, hmain]
  exact ⟨hmain, hrun⟩

/-- `sampleChart` with `durationMs` and `startMs` values filled in. -/
def sampleChartMs : ChartData :=
  { title := "Example"
    marked_date := none
    resources := ["R1", "R2"]
    items :=
      [{ title := "A", duration := some 5, duration_ms := some 432000000,
         start_ms := some 0, start_date := some 19723, resource_index := some 0,
         open_ := none },
       { title := "B", duration := some 3, duration_ms := some 259200000,
         start_ms := some 7, start_date := none, resource_index := some 1,
         open_ := none }] }

theorem duration_ms_ignored_witness :
    processChartData 210 80 0 sampleChart = processChartData 210 80 0 sampleChartMs :=
  (duration_ms_ignored 210 80 0 true sampleChart sampleChartMs
    ⟨rfl, rfl, rfl,
     List.Forall₂.cons ⟨rfl, rfl, rfl, rfl, rfl⟩
       (List.Forall₂.cons ⟨rfl, rfl, rfl, rfl, rfl⟩ List.Forall₂.nil)⟩).1
/-! ## C6: month columns -/

/-- Consecutive month indices `k, k+1, ..., k+cnt-1`. -/
def monthRange (k : ℤ) (cnt : ℕ) : List ℤ := (List.range cnt).map (fun (j : ℕ) => k + (j : ℤ))

theorem monthRange_succ (k : ℤ) (cnt : ℕ) :
    monthRange k (cnt + 1) = k :: monthRange (k + 1) cnt := by
  simp only [monthRange, List.range_succ_eq_map, List.map_cons, List.map_map,
    List.cons.injEq]
  constructor
  · simp
  · refine List.map_congr_left ?_
    intro j hj
    simp only [Function.comp]
    push_cast
    ring

/-- Each month is at least 28 days, so the first-of-month day number grows at
least that fast in the month index. -/
theorem firstOfIdx_add (t : ℕ) (k : ℤ) :
    firstOfIdx k + 28 * (t : ℤ) ≤ firstOfIdx (k + (t : ℤ)) := by
  induction t with
  | zero => simp
  | succ t ih =>
    have h1 := firstOfIdx_succ (k + (t : ℤ))
    have h2 := monthLen_bounds ((k + (t : ℤ)) / 12) ((k + (t : ℤ)) % 12 + 1)
      (by omega) (by omega)
    have e : (k + ((t + 1 : ℕ) : ℤ)) = (k + (t : ℤ)) + 1 := by push_cast; ring
    rw [e, h1]
    push_cast
    omega

/-- Month index of `end_date`'s month. -/
def endMonthIdx (st : Pass1State) : ℤ :=
  monthIdx (civilFromDays st.end_date).1 (civilFromDays st.end_date).2.1

/-- The snapped end date is the day before the first of the next month. -/
theorem endSnap_eq (st : Pass1State) :
    endSnap st = firstOfIdx (endMonthIdx st + 1) - 1 := by
  rcases hC : civilFromDays st.end_date with ⟨y, m, d⟩
  obtain ⟨hinv, hm1, hm2, hd1, hd2⟩ := civilFromDays_spec _ y m d hC
  simp only [endSnap, endMonthIdx, hC]
  rw [numDaysInMonth_eq y m hm1 hm2]
  rw [firstOfIdx_succ]
  obtain ⟨e1, e2⟩ := monthIdx_proj y m hm1 hm2
  rw [e1, e2]
  rw [firstOfIdx_monthIdx y m hm1 hm2]
  rw [daysFromCivil_day y m (monthLen y m)]
  ring

/-- The column-loop guard holds exactly for months up to `end_date`'s month. -/
theorem guard_iff (st : Pass1State) :
    ∀ m : ℤ, firstOfIdx m ≤ endSnap st ↔ m ≤ endMonthIdx st := by
  intro m
  rw [endSnap_eq]
  have h := @StrictMono.lt_iff_lt ℤ ℤ _ _ firstOfIdx firstOfIdx_strictMono m
    (endMonthIdx st + 1)
  omega

/-- Full characterization of the column loop: one column per month index from
`k` up to `eIdx` inclusive, each of width `maxW * days_in_month / 31`, and the
accumulated totals are the sums of the widths and the month lengths. -/
theorem buildColsGo_eq_spec (mw : ℚ) (endZ eIdx : ℤ)
    (hend : ∀ m : ℤ, firstOfIdx m ≤ endZ ↔ m ≤ eIdx) :
    ∀ (fuel : ℕ) (k : ℤ), eIdx + 1 - k ≤ (fuel : ℤ) →
      buildColsGo mw endZ fuel k =
        ((monthRange k (eIdx + 1 - k).toNat).map (fun m =>
            (⟨mw * (numDaysInMonth (m / 12) (m % 12 + 1) : ℚ) / 31,
              monthName (m % 12 + 1)⟩ : ColumnRenderData)),
         ((monthRange k (eIdx + 1 - k).toNat).map (fun m =>
            mw * (numDaysInMonth (m / 12) (m % 12 + 1) : ℚ) / 31)).sum,
         ((monthRange k (eIdx + 1 - k).toNat).map (fun m =>
            (numDaysInMonth (m / 12) (m % 12 + 1)).toNat)).sum) := by
  intro fuel
  induction fuel with
  | zero =>
    intro k hk
    have h0 : (eIdx + 1 - k).toNat = 0 := by omega
    rw [h0]
    simp [buildColsGo, monthRange]
  | succ fuel ih =>
    intro k hk
    by_cases hg : firstOfIdx k ≤ endZ
    · have hg2 : daysFromCivil (k / 12) (k % 12 + 1) 1 ≤ endZ := hg
      have hk2 : k ≤ eIdx := (hend k).mp hg
      have hcnt : (eIdx + 1 - k).toNat = (eIdx - k).toNat + 1 := by omega
      have hcnt2 : (eIdx + 1 - (k + 1)).toNat = (eIdx - k).toNat := by omega
      simp only [buildColsGo]
      rw [if_pos hg2, ih (k + 1) (by push_cast; omega), hcnt, monthRange_succ, hcnt2]
      simp only [List.map_cons, List.sum_cons]
    · have hg2 : ¬ daysFromCivil (k / 12) (k % 12 + 1) 1 ≤ endZ := hg
      have hk2 : ¬ k ≤ eIdx := fun hle => hg ((hend k).mpr hle)
      have h0 : (eIdx + 1 - k).toNat = 0 := by omega
      rw [h0]
      simp only [buildColsGo]
      rw [if_neg hg2]
      simp [monthRange]

theorem buildCols_eq_spec (mw : ℚ) (endZ eIdx : ℤ) (k : ℤ)
    (hend : ∀ m : ℤ, firstOfIdx m ≤ endZ ↔ m ≤ eIdx) :
    buildCols mw endZ k =
      ((monthRange k (eIdx + 1 - k).toNat).map (fun m =>
          (⟨mw * (numDaysInMonth (m / 12) (m % 12 + 1) : ℚ) / 31,
            monthName (m % 12 + 1)⟩ : ColumnRenderData)),
       ((monthRange k (eIdx + 1 - k).toNat).map (fun m =>
          mw * (numDaysInMonth (m / 12) (m % 12 + 1) : ℚ) / 31)).sum,
       ((monthRange k (eIdx + 1 - k).toNat).map (fun m =>
          (numDaysInMonth (m / 12) (m % 12 + 1)).toNat)).sum) := by
  simp only [buildCols]
  apply buildColsGo_eq_spec mw endZ eIdx hend
  have hatom : firstOfIdx k = daysFromCivil (k / 12) (k % 12 + 1) 1 := rfl
  by_cases hk : k ≤ eIdx
  · have hg : firstOfIdx k ≤ endZ := (hend k).mpr hk
    have hgrow := firstOfIdx_add (eIdx - k).toNat k
    have he : (k + (((eIdx - k).toNat : ℕ) : ℤ)) = eIdx := by omega
    rw [he] at hgrow
    have hE : firstOfIdx eIdx ≤ endZ := (hend eIdx).mpr le_rfl
    rw [← hatom]
    push_cast
    omega
  · rw [← hatom]
    push_cast
    omega

/-- C6: the column list has exactly one entry per calendar month from
`start_date`'s month to `end_date`'s month inclusive, in chronological order,
each of width `max_month_width * days_in_month / 31`; the accumulated total
width is the sum of the column widths and the accumulated day count is the sum
of the month lengths. -/
theorem month_columns (tw mw h0 : ℚ) (cd : ChartData) (st : Pass1State)
    (hp : pass1 cd = .ok st) (hlen : ¬ cd.items.length < 2) :
    colsOf (processChartData tw mw h0 cd) =
      (monthRange (startMonthIdx st)
          (endMonthIdx st + 1 - startMonthIdx st).toNat).map (fun m =>
        (⟨mw * (numDaysInMonth (m / 12) (m % 12 + 1) : ℚ) / 31,
          monthName (m % 12 + 1)⟩ : ColumnRenderData)) ∧
    (buildCols mw (endSnap st) (startMonthIdx st)).2.1 =
      ((colsOf (processChartData tw mw h0 cd)).map (·.width)).sum ∧
    (buildCols mw (endSnap st) (startMonthIdx st)).2.2 =
      ((monthRange (startMonthIdx st)
          (endMonthIdx st + 1 - startMonthIdx st).toNat).map (fun m =>
        (numDaysInMonth (m / 12) (m % 12 + 1)).toNat)).sum := by
  have hproc := processChartData_ok_eq tw mw h0 cd st hlen hp
  have hB := buildCols_eq_spec mw (endSnap st) (endMonthIdx st) (startMonthIdx st)
    (guard_iff st)
  have hcols : colsOf (processChartData tw mw h0 cd) =
      (buildCols mw (endSnap st) (startMonthIdx st)).1 := by
    simp only [hproc, colsOf]
  refine ⟨?_, ?_, ?_⟩
  · rw [hcols, hB]
  · rw [hcols, hB]
    simp only [List.map_map]
    rfl
  · rw [hB]

theorem month_columns_witness :
    pass1 sampleChart = .ok ⟨19723, 19733, 19733, [some 7, some 3]⟩ ∧
    colsOf (processChartData 210 80 0 sampleChart) =
      (monthRange (startMonthIdx ⟨19723, 19733, 19733, [some 7, some 3]⟩)
          (endMonthIdx ⟨19723, 19733, 19733, [some 7, some 3]⟩ + 1 -
            startMonthIdx ⟨19723, 19733, 19733, [some 7, some 3]⟩).toNat).map (fun m =>
        (⟨80 * (numDaysInMonth (m / 12) (m % 12 + 1) : ℚ) / 31,
          monthName (m % 12 + 1)⟩ : ColumnRenderData)) :=
  ⟨by decide,
   (month_columns 210 80 0 sampleChart ⟨19723, 19733, 19733, [some 7, some 3]⟩
     (by decide) (by decide)).1⟩
